import Mathlib

/-!
# Verification of the tumbuh.in area-processing pipeline

Shallow embedding of the core pipeline of the `agro` Django application:
the polygon tiler (`agro/services/tiling.py`), the concurrent variable
collector (`agro/services/gee_service.py`, `agro/views.py`), the
recommendation merger (`agro/views.py`), the aggregator
(`agro/services/aggregator.py`) and the request gate of the
area-processing endpoint (`agro/views.py`).

Python numbers are embedded as `ℚ` (the arithmetic the code performs on
them is exact on the inputs considered; `statistics.mean` is exact by
construction).  Python `None` is `Option.none` or `PyVal.pnull`,
exceptions are `Except.error`, and thread-pool completion order is an
explicit permutation parameter.
-/

/-- Model of a Python runtime value as it flows through the pipeline
(JSON payloads, provider results, tile variables).  Finite floats and
ints are both carried as `ℚ`; the IEEE non-finite values keep their own
constructors because `_make_json_safe` treats them specially.  Dict keys
are modelled as strings (every dict built or read by the pipeline is
string-keyed, so `str(k)` in `_make_json_safe` is the identity). -/
inductive PyVal where
  | pnull
  | pbool (b : Bool)
  | pint (n : ℤ)
  | pfloat (q : ℚ)
  | pnan
  | pinf (pos : Bool)
  | pdec (q : ℚ)
  | pdate (iso : String)
  | pstr (s : String)
  | plist (xs : List PyVal)
  | ptuple (xs : List PyVal)
  | pset (xs : List PyVal)
  | pdict (kvs : List (String × PyVal))
  | pother (s : String)

/-- Model of `d.get(k)` on a Python dict: the value under `k`, else `None`.
The pipeline only calls `.get` on dict values. -/
def pyGet (v : PyVal) (k : String) : PyVal :=
  match v with
  | .pdict kvs => (kvs.lookup k).getD .pnull
  | _ => .pnull

/-- Model of `d.get(k, default)` on a Python dict. -/
def pyGetD (v : PyVal) (k : String) (d : PyVal) : PyVal :=
  match v with
  | .pdict kvs => (kvs.lookup k).getD d
  | _ => d

/-- Python truthiness (`bool(v)`). -/
def pyTruthy : PyVal → Bool
  | .pnull => false
  | .pbool b => b
  | .pint n => n ≠ 0
  | .pfloat q => q ≠ 0
  | .pnan => true
  | .pinf _ => true
  | .pdec q => q ≠ 0
  | .pdate _ => true
  | .pstr s => s ≠ ""
  | .plist xs => ¬ xs.isEmpty
  | .ptuple xs => ¬ xs.isEmpty
  | .pset xs => ¬ xs.isEmpty
  | .pdict kvs => ¬ kvs.isEmpty
  | .pother _ => true

/-- Model of `isinstance(v, (int, float))`: true for ints, floats (including the
non-finite ones) and bools (`bool` subclasses `int` in Python). -/
def pyIsNumber : PyVal → Bool
  | .pint _ => true
  | .pfloat _ => true
  | .pbool _ => true
  | .pnan => true
  | .pinf _ => true
  | _ => false

/-- Numeric value of a Python number as a rational.  The non-finite
floats have no rational value; they are mapped to `0` here and the
aggregation claims are read over finite data (a NaN among the inputs
would make every Python mean NaN, which the rational embedding does not
track). -/
def pyNumVal : PyVal → ℚ
  | .pint n => (n : ℚ)
  | .pfloat q => q
  | .pbool b => if b then 1 else 0
  | _ => 0

mutual

/-- Model of `_make_json_safe` (agro/views.py): recursively converts a value into
a JSON-storable one.  Dicts/lists/tuples/sets recurse (tuples and sets
become lists), date-like values become their `isoformat` string,
`Decimal` becomes a float, non-finite floats become `None`, primitives
pass through, anything else becomes `str(value)`.  The numpy branch is
omitted (`np` values never reach this code path in the embedding). -/
def make_json_safe : PyVal → PyVal
  | .pdict kvs => .pdict (make_json_safe_entries kvs)
  | .plist xs => .plist (make_json_safe_list xs)
  | .ptuple xs => .plist (make_json_safe_list xs)
  | .pset xs => .plist (make_json_safe_list xs)
  | .pdate iso => .pstr iso
  | .pdec q => .pfloat q
  | .pnan => .pnull
  | .pinf _ => .pnull
  | .pfloat q => .pfloat q
  | .pint n => .pint n
  | .pstr s => .pstr s
  | .pbool b => .pbool b
  | .pnull => .pnull
  | .pother s => .pstr s

/-- List part of `_make_json_safe`. -/
def make_json_safe_list : List PyVal → List PyVal
  | [] => []
  | x :: xs => make_json_safe x :: make_json_safe_list xs

/-- Dict part of `_make_json_safe` (keys are strings, `str(k) = k`). -/
def make_json_safe_entries : List (String × PyVal) → List (String × PyVal)
  | [] => []
  | (k, v) :: kvs => (k, make_json_safe v) :: make_json_safe_entries kvs

end

/-- The in-band failure record `{"status": "error", "message": msg}`
used by `safe_call`, `GEEVariableService.collect` and
`_collect_variables`. -/
def errorRecord (msg : String) : PyVal :=
  .pdict [("status", .pstr "error"), ("message", .pstr msg)]

theorem make_json_safe_errorRecord (msg : String) :
    make_json_safe (errorRecord msg) = errorRecord msg := rfl

/-- Stable insertion into a sorted list: the new element passes every
element not strictly greater than it, so elements comparing equal keep
their original relative order — the insertion step of a stable sort. -/
def stable_insert {a : Type} (le : a -> a -> Bool) (x : a) : List a -> List a
  | [] => [x]
  | y :: ys => if le x y && !le y x then x :: y :: ys else y :: stable_insert le x ys

/-- CPython's `sorted(xs, key=...)` as a stable sort: insert the
elements left to right. -/
def py_sorted {a : Type} (le : a -> a -> Bool) (l : List a) : List a :=
  l.foldl (fun acc x => stable_insert le x acc) []

/-! ## Aggregator (`agro/services/aggregator.py`) -/

/-- One recommendation record as read by the aggregator and the merger:
`rec["plant"]` (a category label, always present on records produced by
the enrichment service) and `rec.get("confidence")` (arbitrary value,
checked with `isinstance(..., (int, float))` before use). -/
structure Rec where
  plant : String
  confidence : PyVal

/-- Tile status enum (`Tile.Status`). -/
inductive TileStatus where
  | pending
  | collected
  | enriched
  | failed
deriving DecidableEq, Repr

/-- The `Tile` fields the aggregator reads: the JSON `variables` map and
the `gemini_recommendations` list (`none` models a SQL `NULL`, which the
code guards with `or []`). -/
structure AgTile where
  tile_variables : PyVal
  gemini_recommendations : Option (List Rec)

/-- The `Area` field the aggregator reads. -/
structure AgArea where
  processing_seconds : Option ℚ

/-- Model of `tile.gemini_recommendations or []`. -/
def recsOf (t : AgTile) : List Rec :=
  match t.gemini_recommendations with
  | none => []
  | some l => l

/-- One increment of a `collections.Counter`: bump an existing key in
place, or append a fresh key with count 1 (dicts preserve insertion
order). -/
def counter_add (c : List (String × Nat)) (k : String) : List (String × Nat) :=
  if c.any (fun e => e.1 = k) then
    c.map (fun e => if e.1 = k then (e.1, e.2 + 1) else e)
  else
    c ++ [(k, 1)]

/-- Model of `Counter.most_common()`: entries sorted by descending count; CPython
uses a stable sort, so ties keep insertion order.  Modelled by sorting
the position-annotated entries by (count descending, position
ascending), which is exactly the stable descending sort. -/
def mc_le (a b : Nat × (String × Nat)) : Bool :=
  decide (b.2.2 < a.2.2) || (decide (a.2.2 = b.2.2) && decide (a.1 ≤ b.1))

def most_common (c : List (String × Nat)) : List (String × Nat) :=
  (py_sorted mc_le c.enum).map (fun e => e.2)

/-- The `ndvi` lookup of the summary loop:
`tile.variables.get("landcover", {}).get("vegetation_indices", {}).get("ndvi")`. -/
def ndviLookup (t : AgTile) : PyVal :=
  pyGet (pyGetD (pyGetD t.tile_variables "landcover" (.pdict [])) "vegetation_indices" (.pdict [])) "ndvi"

/-- The `ndwi` lookup of the summary loop. -/
def ndwiLookup (t : AgTile) : PyVal :=
  pyGet (pyGetD (pyGetD t.tile_variables "landcover" (.pdict [])) "vegetation_indices" (.pdict [])) "ndwi"

/-- The precipitation lookup of the summary loop, including its Python
`or` fallback: the nested `seasonal.data.long_term_avg_precip_mm` value
is used only when truthy, otherwise the flat
`seasonal.long_term_avg_precip_mm` value is used. -/
def precipLookup (t : AgTile) : PyVal :=
  let a := pyGet (pyGetD (pyGetD t.tile_variables "seasonal" (.pdict [])) "data" (.pdict [])) "long_term_avg_precip_mm"
  if pyTruthy a then a else pyGet (pyGetD t.tile_variables "seasonal" (.pdict [])) "long_term_avg_precip_mm"

/-- The accumulator of the single pass of `build_summary` over the
tiles: the dominant-plant counter and the three value lists. -/
structure SummaryAcc where
  counter : List (String × Nat)
  ndvi_values : List ℚ
  ndwi_values : List ℚ
  precip_values : List ℚ

/-- One iteration of the `for tile in tiles_list` loop of
`build_summary`. -/
def summary_step (acc : SummaryAcc) (t : AgTile) : SummaryAcc :=
  let recs := recsOf t
  let counter :=
    match recs with
    | [] => acc.counter
    | r :: _ => counter_add acc.counter r.plant
  let ndvi := ndviLookup t
  let ndwi := ndwiLookup t
  let precip := precipLookup t
  { counter := counter
    ndvi_values := if pyIsNumber ndvi then acc.ndvi_values ++ [pyNumVal ndvi] else acc.ndvi_values
    ndwi_values := if pyIsNumber ndwi then acc.ndwi_values ++ [pyNumVal ndwi] else acc.ndwi_values
    precip_values := if pyIsNumber precip then acc.precip_values ++ [pyNumVal precip] else acc.precip_values }

/-- Model of `statistics.mean` (exact: CPython sums via `Fraction`). -/
def pyMean (vals : List ℚ) : ℚ := vals.sum / (vals.length : ℚ)

/-- A formatted numeric report value: the exact mean together with the
requested decimal precision and unit suffix of the f-string
(`f"{mean:.3f}"`, `f"{mean:.1f} mm"`).  The decimal rendering itself is
abstracted to this triple. -/
structure FmtVal where
  value : ℚ
  digits : Nat
  suffix : String

/-- One entry of the `dominant` list built by `build_summary`. -/
structure DominantEntry where
  plant : String
  tiles : Nat
  avg_confidence : ℚ

/-- The dict returned by `build_summary`. -/
structure Summary where
  tile_count : Nat
  dominant_crops : List DominantEntry
  env_summary : List (String × FmtVal)
  processing_seconds : ℚ

/-- Model of `_average_confidence` (agro/services/aggregator.py): the mean of the
numeric `confidence` values of every recommendation carrying `plant`, at
any rank in any tile; `0.0` when there are none. -/
def average_confidence (tiles : List AgTile) (plant : String) : ℚ :=
  let vals := tiles.flatMap (fun t =>
    (recsOf t).filterMap (fun r =>
      if r.plant = plant && pyIsNumber r.confidence then some (pyNumVal r.confidence) else none))
  if vals.isEmpty then 0 else vals.sum / (vals.length : ℚ)

/-- Model of `area.processing_seconds or 0`. -/
def processingSecondsOf (a : AgArea) : ℚ :=
  match a.processing_seconds with
  | none => 0
  | some q => if q = 0 then 0 else q

/-- Model of `build_summary` (agro/services/aggregator.py). -/
def build_summary (area : AgArea) (tiles : List AgTile) : Summary :=
  let acc := tiles.foldl summary_step ⟨[], [], [], []⟩
  let env_summary :=
    (if acc.ndvi_values.isEmpty then [] else
      [("Rata-rata NDVI", FmtVal.mk (pyMean acc.ndvi_values) 3 "")]) ++
    (if acc.ndwi_values.isEmpty then [] else
      [("Rata-rata NDWI", FmtVal.mk (pyMean acc.ndwi_values) 3 "")]) ++
    (if acc.precip_values.isEmpty then [] else
      [("Curah Hujan Bulanan", FmtVal.mk (pyMean acc.precip_values) 1 " mm")])
  let dominant := (most_common acc.counter).map (fun e =>
    DominantEntry.mk e.1 e.2 (average_confidence tiles e.1))
  { tile_count := tiles.length
    dominant_crops := dominant
    env_summary := env_summary
    processing_seconds := processingSecondsOf area }

/-! ## Recommendation merger (`_apply_recommendations`, agro/views.py) -/

/-- One entry of `recommendations["tiles"]`: `tile.get("tile_id")` and
`tile.get("recommendations", [])`. -/
structure RecPayloadTile where
  tile_id : Option String
  recommendations : List Rec

/-- The enrichment payload: `none` models a payload without the
top-level `"tiles"` key. -/
structure RecPayload where
  tiles : Option (List RecPayloadTile)

/-- The `Tile` fields touched by `_apply_recommendations`. -/
structure VTile where
  row_index : Nat
  col_index : Nat
  gemini_recommendations : List Rec
  status : TileStatus

/-- One Python dict assignment `mapping[k] = v`: overwrite in place or
append. -/
def dict_insert (m : List (Option String × List Rec)) (k : Option String)
    (v : List Rec) : List (Option String × List Rec) :=
  if m.any (fun e => e.1 = k) then
    m.map (fun e => if e.1 = k then (e.1, v) else e)
  else
    m ++ [(k, v)]

/-- The `mapping` dict built by `_apply_recommendations` (empty when the
payload has no `"tiles"` key). -/
def build_mapping (p : RecPayload) : List (Option String × List Rec) :=
  match p.tiles with
  | none => []
  | some ts => ts.foldl (fun m t => dict_insert m t.tile_id t.recommendations) []

/-- Model of `mapping.get(key)` for the string key `"{row}-{col}"` (a `None`
`tile_id` key can never match a string key). -/
def mapping_get (m : List (Option String × List Rec)) (k : String) : Option (List Rec) :=
  (m.find? (fun e => e.1 = some k)).map (fun e => e.2)

/-- The tile key `f"{row}-{col}"`. -/
def tileKey (row col : Nat) : String := toString row ++ "-" ++ toString col

/-- Model of `_apply_recommendations` (agro/views.py): per tile, attach the
mapped list (default `[]`) and set status to enriched exactly when the
attached list is non-empty. -/
def apply_recommendations (tiles : List VTile) (p : RecPayload) : List VTile :=
  tiles.map (fun t =>
    let key := tileKey t.row_index t.col_index
    let recs := (mapping_get (build_mapping p) key).getD []
    { t with
      gemini_recommendations := recs
      status := if recs.isEmpty then t.status else .enriched })

/-! ## Variable collector (`agro/services/gee_service.py`) -/

/-- The six statically known provider names of
`GEEVariableService.collect`. -/
inductive ProviderName where
  | climate
  | soil
  | topography
  | landcover
  | seasonal
  | nighttime
deriving DecidableEq, Repr

/-- The providers dict in its construction order. -/
def provider_names : List ProviderName :=
  [.climate, .soil, .topography, .landcover, .seasonal, .nighttime]

/-- A provider behaviour: the documented function either returns a
payload or raises an exception carrying a message. -/
def ProviderBehavior : Type := ProviderName → Except String PyVal

/-- Model of `safe_call` (agro/services/gee_service.py): run the provider
function; on success return its result unchanged (the status inspection
only logs), on any exception return
`{"status": "error", "message": str(exc)}`. -/
def safe_call (outcome : Except String PyVal) : PyVal :=
  match outcome with
  | .ok r => r
  | .error msg => errorRecord msg

/-- The `results` dict of `collect` as filled by the `as_completed`
loop: one `(name, safe_call result)` entry per provider, in completion
order.  `safe_call` is total, so the defensive `future.result()`
handler in `collect` never fires. -/
def collect_results (bhv : ProviderBehavior) (order : List ProviderName) :
    List (ProviderName × PyVal) :=
  order.map (fun n => (n, safe_call (bhv n)))

/-- Model of `GEEVariableService.collect`: the returned dict, built from
`results.get(name)` for the six fixed names (`.get` yields `None` for a
missing key).  `order` is the thread-pool completion order of the six
provider futures. -/
def collect (bhv : ProviderBehavior) (order : List ProviderName) :
    List (ProviderName × PyVal) :=
  let results := collect_results bhv order
  provider_names.map (fun n => (n, ((results.lookup n).getD .pnull)))

/-! ## Batch orchestration (`_collect_variables`, agro/views.py) -/

/-- The `TileGeometry` fields `_collect_variables` reads.  `geojson`
stands for the GeoJSON dict `tile_geom.to_geojson()` produces; the
centroid components are `Option` because the defensive validity filter
checks them against `None`. -/
structure TileGeom where
  row : Nat
  col : Nat
  centroid_lat : Option ℚ
  centroid_lon : Option ℚ
  geojson : PyVal

/-- The `Tile` row created by `_collect_variables`. -/
structure DbTile where
  row_index : Nat
  col_index : Nat
  centroid_lat : Option ℚ
  centroid_lon : Option ℚ
  geometry : PyVal
  tile_variables : PyVal
  status : TileStatus

/-- The validity filter: both centroid components non-`None`. -/
def validTileGeoms (tile_geoms : List TileGeom) : List TileGeom :=
  tile_geoms.filter (fun g => g.centroid_lat.isSome && g.centroid_lon.isSome)

/-- The worker-pool size of `_collect_variables`:
`max(1, min(getattr(settings, "GEE_MAX_WORKERS", 4), len(valid_tiles)))`.
`none` models an unset `GEE_MAX_WORKERS` setting. -/
def gee_pool_size (cfg : Option ℤ) (n : Nat) : ℤ :=
  max 1 (min (cfg.getD 4) (n : ℤ))

/-- The try/except around `future.result()` in the tile loop: a raised
collect call degrades to the error record. -/
def tile_result_or_error (outcome : Except String PyVal) : PyVal :=
  match outcome with
  | .ok r => r
  | .error msg => errorRecord msg

/-- Ascending (row, col) comparison used by
`sorted(results, key=lambda item: (item[0].row, item[0].col))`. -/
def rowColLe (a b : TileGeom × PyVal) : Bool :=
  decide (a.1.row < b.1.row) || (decide (a.1.row = b.1.row) && decide (a.1.col ≤ b.1.col))

/-- The persisted row for one tile: centroid copied from the geometry,
variables as collected, status `"collected"`. -/
def mkDbTile (g : TileGeom) (vars : PyVal) : DbTile :=
  { row_index := g.row
    col_index := g.col
    centroid_lat := g.centroid_lat
    centroid_lon := g.centroid_lon
    geometry := g.geojson
    tile_variables := vars
    status := .collected }

/-- Model of `_collect_variables` (agro/views.py): skip tiles with a null
centroid; submit one collect call per valid tile; gather
`(tile_geom, _make_json_safe(variables))` pairs in completion order
(`completion` is the `as_completed` order, a permutation of the valid
tiles); insert rows sorted ascending by (row, col).  `outcome` is the
behaviour of `GEEVariableService.collect` at each tile, `Except.error`
modelling a raised call. -/
def collect_variables (outcome : TileGeom → Except String PyVal)
    (completion : List TileGeom) (tile_geoms : List TileGeom) : List DbTile :=
  let valid := validTileGeoms tile_geoms
  if valid.isEmpty then []
  else
    let results := completion.map (fun g => (g, make_json_safe (tile_result_or_error (outcome g))))
    let sortedResults := py_sorted rowColLe results
    sortedResults.map (fun gv => mkDbTile gv.1 gv.2)

/-! ## Request gate of the area-processing endpoint (`process_area`,
agro/views.py, lines 205-230) -/

/-- A JSON value as produced by `json.loads` on the request body.
CPython's default parser also accepts the non-standard constants
`Infinity`, `-Infinity` and `NaN`, which it maps to non-finite floats,
hence their constructors. -/
inductive JVal where
  | jnull
  | jbool (b : Bool)
  | jint (n : ℤ)
  | jfloat (q : ℚ)
  | jinf (pos : Bool)
  | jnan
  | jstr (s : String)
  | jarr (xs : List JVal)
  | jobj (kvs : List (String × JVal))

/-- The exception classes `int()` can raise. -/
inductive PyErr where
  | typeError
  | valueError
  | overflowError
deriving DecidableEq, Repr

/-- Model of `int()` on a decimal-digit string (simplified: an optional sign
followed by one or more digits; Python additionally strips whitespace
and allows underscores). -/
def pyIntOfString (s : String) : Except PyErr ℤ :=
  let core := fun (ds : List Char) (sign : ℤ) =>
    if ds ≠ [] ∧ ds.all Char.isDigit then
      Except.ok (sign * (ds.foldl (fun acc c => acc * 10 + (c.toNat - '0'.toNat)) 0 : ℕ))
    else Except.error PyErr.valueError
  match s.data with
  | '-' :: ds => core ds (-1)
  | '+' :: ds => core ds 1
  | ds => core ds 1

/-- Truncation toward zero (`int()` on a finite float). -/
def ratTrunc (q : ℚ) : ℤ := if 0 ≤ q then ⌊q⌋ else -⌊-q⌋

/-- Model of `int(v)` for a JSON-decoded value: ints pass through, bools coerce,
finite floats truncate, numeric strings parse; `None`, arrays and
objects raise `TypeError`; `NaN` raises `ValueError`; infinities raise
`OverflowError` (which is not a `ValueError`). -/
def pyInt : JVal → Except PyErr ℤ
  | .jint n => .ok n
  | .jbool b => .ok (if b then 1 else 0)
  | .jfloat q => .ok (ratTrunc q)
  | .jinf _ => .error .overflowError
  | .jnan => .error .valueError
  | .jstr s => pyIntOfString s
  | .jnull => .error .typeError
  | .jarr _ => .error .typeError
  | .jobj _ => .error .typeError

/-- Truthiness of a JSON-decoded value (`if not geometry`). -/
def jTruthy : JVal → Bool
  | .jnull => false
  | .jbool b => b
  | .jint n => n ≠ 0
  | .jfloat q => q ≠ 0
  | .jinf _ => true
  | .jnan => true
  | .jstr s => s ≠ ""
  | .jarr xs => ¬ xs.isEmpty
  | .jobj kvs => ¬ kvs.isEmpty

/-- Model of `payload.get(k)` / `payload.get(k, d)` on the decoded body. -/
def jGetD (v : JVal) (k : String) (d : JVal) : JVal :=
  match v with
  | .jobj kvs => (kvs.lookup k).getD d
  | _ => d

/-- Outcome of the validation prefix of `process_area`: an HTTP 400
rejection with its message, an uncaught exception (Django turns it into
a 500 server error), or control reaching `PolygonTiler(tile_size)` —
the `Area` and `Tile` rows are only created after this point (and after
`tiler.tile` succeeds). -/
inductive GateOutcome where
  | badRequest (msg : String)
  | serverError (e : PyErr)
  | proceeds (tile_size : ℤ)

/-- The validation prefix of `process_area` (agro/views.py, lines
206-224): body parse check, geometry truthiness check, then
`int(payload.get("tile_size", 15))` guarded by
`except (TypeError, ValueError)`, then the 5..100 range check.  `none`
for `body` models a `json.JSONDecodeError`. -/
def process_area_gate (body : Option JVal) : GateOutcome :=
  match body with
  | none => .badRequest "Payload tidak valid"
  | some payload =>
    let geometry := jGetD payload "geometry" .jnull
    if ¬ jTruthy geometry then .badRequest "GeoJSON polygon wajib diisi."
    else
      match pyInt (jGetD payload "tile_size" (.jint 15)) with
      | .error .typeError => .badRequest "Ukuran tile harus berupa angka."
      | .error .valueError => .badRequest "Ukuran tile harus berupa angka."
      | .error e => .serverError e
      | .ok tile_size =>
        if tile_size < 5 ∨ tile_size > 100 then
          .badRequest "Ukuran tile harus antara 5 dan 100 meter."
        else .proceeds tile_size

/-! ## Polygon tiler (`agro/services/tiling.py`)

The tiler drives two external collaborators: the `pyproj` transformer
pair held by `PolygonTiler` and the `shapely` geometry operations.  The
algorithm is embedded over an explicit interface (`GeoBackend`) exposing
exactly the operations the source invokes, so the structural claims are
settled for every behaviour of the collaborators, and the concrete
claims by instantiating the interface with exact rational polygon
geometry. -/

/-- The shape of a `shapely` intersection result as the tiler inspects
it: empty, a single-part geometry (`geom_type == "Polygon"`, or a
degenerate part without a `geoms` attribute), or a multi-part geometry
(`geom_type != "Polygon"` with a `geoms` attribute). -/
inductive SGeom (P : Type) where
  | emptyInter
  | single (p : P)
  | multi (pieces : List P)

/-- The geometry operations `PolygonTiler.tile` performs, in the order
the source calls them: validity check and zero-buffer repair,
projection to meters and back, emptiness, planar bounds
(minx, miny, maxx, maxy), intersection with an axis-aligned cell
rectangle, area, and centroid (x, y). -/
structure GeoBackend (P : Type) where
  is_valid : P → Bool
  buffer0 : P → P
  to_meter : P → P
  to_wgs84 : P → P
  is_empty : P → Bool
  bounds : P → ℚ × ℚ × ℚ × ℚ
  intersect_cell : ℚ × ℚ × ℚ × ℚ → P → SGeom P
  area : P → ℚ
  centroid : P → ℚ × ℚ

/-- One emitted tile: `TileGeometry` of agro/services/tiling.py, with
`centroid = (lat, lon)`. -/
structure TileGeometryG (P : Type) where
  row : Nat
  col : Nat
  polygon_wgs84 : P
  centroid : ℚ × ℚ

/-- CPython `max(xs, key=...)` over a non-empty list: the first element
of maximal key (later elements replace the current one only when
strictly greater). -/
def py_max_by {α : Type} (key : α → ℚ) (x : α) (xs : List α) : α :=
  xs.foldl (fun acc g => if key acc < key g then g else acc) x

/-- Model of `max(candidates, key=lambda g: g.area)`. -/
def py_max_by_area {P : Type} (b : GeoBackend P) (x : P) (xs : List P) : P :=
  py_max_by b.area x xs

/-- The axis-aligned cell rectangle of grid position (row, col),
clipped to the bounding box on its far edges:
`(cell_minx, cell_miny, cell_maxx, cell_maxy)`. -/
def cell_rect (tile_size_m minx miny maxx maxy : ℚ) (row col : Nat) : ℚ × ℚ × ℚ × ℚ :=
  (minx + col * tile_size_m,
   miny + row * tile_size_m,
   min (minx + col * tile_size_m + tile_size_m) maxx,
   min (miny + row * tile_size_m + tile_size_m) maxy)

/-- The body of the inner `for col in range(n_cols)` loop of
`PolygonTiler.tile` for one grid cell: build the cell rectangle
(clipped to the bounding box), intersect with the planar polygon, and
produce the centroid-matrix entry (`none` is the
`{"lat": None, "lon": None}` cell) together with the emitted tile
descriptor, if any.  A multi-part intersection keeps the largest-area
piece among those of positive area. -/
def cell_eval {P : Type} (b : GeoBackend P) (tile_size_m : ℚ) (pm : P)
    (minx miny maxx maxy : ℚ) (row col : Nat) :
    Option (ℚ × ℚ) × Option (TileGeometryG P) :=
  let emit := fun (piece : P) =>
    let pw := b.to_wgs84 piece
    let c := b.centroid pw
    (some (c.2, c.1), some (TileGeometryG.mk row col pw (c.2, c.1)))
  match b.intersect_cell (cell_rect tile_size_m minx miny maxx maxy row col) pm with
  | .emptyInter => (none, none)
  | .single piece => emit piece
  | .multi pieces =>
    match pieces.filter (fun g => 0 < b.area g) with
    | [] => (none, none)
    | c :: cs => emit (py_max_by_area b c cs)

/-- Model of `PolygonTiler.tile` (agro/services/tiling.py, lines 33-88), taken
from the point where `_to_polygon` has produced the input polygon:
zero-buffer repair when invalid, projection to meters, emptiness guard
(`ValueError`), grid dimensions from the planar bounding box, then the
raster double loop over the cells.  The imperative appends translate to
`map`/`filterMap` over the row and column ranges. -/
def PolygonTiler_tile {P : Type} (b : GeoBackend P) (tile_size_m : ℚ) (geojson_poly : P) :
    Except String (List (List (Option (ℚ × ℚ))) × List (TileGeometryG P)) :=
  let polygon_wgs84 := if ¬ b.is_valid geojson_poly then b.buffer0 geojson_poly else geojson_poly
  let polygon_meter := b.to_meter polygon_wgs84
  if b.is_empty polygon_meter then .error "Polygon tidak valid untuk ditiling."
  else
    let bds := b.bounds polygon_meter
    let minx := bds.1
    let miny := bds.2.1
    let maxx := bds.2.2.1
    let maxy := bds.2.2.2
    let n_cols := (max 1 ⌈(maxx - minx) / tile_size_m⌉).toNat
    let n_rows := (max 1 ⌈(maxy - miny) / tile_size_m⌉).toNat
    let matrix := (List.range n_rows).map (fun row =>
      (List.range n_cols).map (fun col =>
        (cell_eval b tile_size_m polygon_meter minx miny maxx maxy row col).1))
    let tiles := ((List.range n_rows).map (fun row =>
      (List.range n_cols).filterMap (fun col =>
        (cell_eval b tile_size_m polygon_meter minx miny maxx maxy row col).2))).flatten
    .ok (matrix, tiles)

/-! ### Exact rational polygon geometry

A concrete instantiation of `GeoBackend` with polygons as rational
vertex rings, used to evaluate the tiler on concrete inputs.  Area and
centroid are the standard signed shoelace formulas — what
`shapely` computes for `polygon.area` and `polygon.centroid`. -/

/-- The edge list of a vertex ring (each vertex paired with its cyclic
successor). -/
def ringEdges (ring : List (ℚ × ℚ)) : List ((ℚ × ℚ) × (ℚ × ℚ)) :=
  ring.zip (ring.drop 1 ++ ring.take 1)

/-- Twice the signed area of a ring (shoelace sum). -/
def ringArea2 (ring : List (ℚ × ℚ)) : ℚ :=
  ((ringEdges ring).map (fun e => e.1.1 * e.2.2 - e.2.1 * e.1.2)).sum

/-- Model of `polygon.area`: unsigned area. -/
def ringArea (ring : List (ℚ × ℚ)) : ℚ := |ringArea2 ring| / 2

/-- Model of `polygon.centroid`: the area centroid by the shoelace centroid
formula (valid for either orientation). -/
def ringCentroid (ring : List (ℚ × ℚ)) : ℚ × ℚ :=
  let a2 := ringArea2 ring
  let sx := ((ringEdges ring).map (fun e =>
    (e.1.1 + e.2.1) * (e.1.1 * e.2.2 - e.2.1 * e.1.2))).sum
  let sy := ((ringEdges ring).map (fun e =>
    (e.1.2 + e.2.2) * (e.1.1 * e.2.2 - e.2.1 * e.1.2))).sum
  (sx / (3 * a2), sy / (3 * a2))

/-- Planar bounding box of a ring by folding min/max over the
vertices. -/
def ringBounds (ring : List (ℚ × ℚ)) : ℚ × ℚ × ℚ × ℚ :=
  match ring with
  | [] => (0, 0, 0, 0)
  | v :: vs => vs.foldl
      (fun bds w => (min bds.1 w.1, min bds.2.1 w.2, max bds.2.2.1 w.1, max bds.2.2.2 w.2))
      (v.1, v.2, v.1, v.2)

/-- Membership of a point in a closed axis-aligned rectangle. -/
def inRect (r : ℚ × ℚ × ℚ × ℚ) (v : ℚ × ℚ) : Bool :=
  decide (r.1 ≤ v.1) && decide (v.1 ≤ r.2.2.1) && decide (r.2.1 ≤ v.2) && decide (v.2 ≤ r.2.2.2)

/-- Even-odd (ray-crossing) membership of a point in the region bounded
by a simple ring: the mathematical `point.within(polygon)` test for
points off the boundary. -/
def point_in_ring (pt : ℚ × ℚ) (ring : List (ℚ × ℚ)) : Bool :=
  (ringEdges ring).foldl (fun inside e =>
    let a := e.1
    let b := e.2
    if (decide (pt.2 < a.2) != decide (pt.2 < b.2)) &&
        decide (pt.1 < (b.1 - a.1) * (pt.2 - a.2) / (b.2 - a.2) + a.1)
    then !inside else inside) false

/-- Linearised scale of the fixed EPSG:4326 → EPSG:3857 transformer
pair near the equator, in meters per degree (the web-Mercator x
coordinate is exactly linear in longitude at this scale; y is
near-linear at small latitudes). -/
def metersPerDegree : ℚ := 111319

/-- Model of `GeoBackend` instance over rational vertex rings.  The projection
pair is the linearised equatorial Mercator scale (exactly invertible
over `ℚ`).  `intersect_cell` models the `shapely` intersection in the
single case the concrete evaluations exercise — a cell rectangle that
contains every vertex of a simple polygon, where the intersection is
the polygon itself; other configurations are not evaluated. -/
def ringBackend : GeoBackend (List (ℚ × ℚ)) :=
  { is_valid := fun _ => true
    buffer0 := id
    to_meter := fun ring => ring.map (fun v => (metersPerDegree * v.1, metersPerDegree * v.2))
    to_wgs84 := fun ring => ring.map (fun v => (v.1 / metersPerDegree, v.2 / metersPerDegree))
    is_empty := fun ring => ring.isEmpty
    bounds := ringBounds
    intersect_cell := fun r ring =>
      if ring.all (inRect r) then .single ring else .emptyInter
    area := ringArea
    centroid := ringCentroid }

/-- A U-shaped (simple, valid, non-convex) test polygon in geographic
coordinates: a 10° × 10° square with a 4° × 8° notch cut from the top
edge down to 2° above the bottom edge. -/
def uPolygon : List (ℚ × ℚ) :=
  [(0, 0), (10, 0), (10, 10), (7, 10), (7, 2), (3, 2), (3, 10), (0, 10)]

/-! ## Geometry normalisation (`_to_polygon`, agro/services/tiling.py) -/

/-- Model of `shapely` geometry types as `_to_polygon` discriminates them. -/
inductive GType where
  | polygonT
  | multiPolygonT
  | geometryCollectionT
  | pointT
  | lineStringT
  | otherT
deriving DecidableEq, Repr

/-- A `shapely` geometry as `_to_polygon` observes it: its `geom_type`,
its `is_empty` flag, its `area`, and its member list (`geoms` of a
multi-part geometry or collection; empty for atomic types). -/
inductive ShpGeom where
  | node (gtype : GType) (emptyFlag : Bool) (area : ℚ) (members : List ShpGeom)

/-- Model of `geom.geom_type`. -/
def gtypeOf : ShpGeom → GType
  | .node t _ _ _ => t

/-- Model of `geom.is_empty`. -/
def shpIsEmpty : ShpGeom → Bool
  | .node _ e _ _ => e

/-- Model of `geom.area`. -/
def shpArea : ShpGeom → ℚ
  | .node _ _ a _ => a

/-- Model of `geom.geoms`. -/
def shpMembers : ShpGeom → List ShpGeom
  | .node _ _ _ ms => ms

/-- GeoJSON-like input of `_to_polygon`, discriminated exactly as the
source does on `geojson.get("type")`: a falsy input, a `Feature` (whose
`geometry` may be missing or falsy: `none`), a `FeatureCollection`
(each feature's `geometry` may be missing: `none`), or any other value,
which is handed to `shapely.geometry.shape` directly — modelled as the
resulting geometry. -/
inductive GeoInput where
  | emptyInput
  | feature (geometry : Option ShpGeom)
  | featureCollection (features : List (Option ShpGeom))
  | geometry (g : ShpGeom)

/-- Whether a member survives the GeometryCollection filter
(`geom_type in ("Polygon", "MultiPolygon")`). -/
def isPolygonal (m : ShpGeom) : Bool :=
  decide (gtypeOf m = .polygonT) || decide (gtypeOf m = .multiPolygonT)

/-- The second half of `_to_polygon`, from the `geom.is_empty` check
on: empty guard, GeometryCollection reduction (filter polygonal
members, union them), MultiPolygon reduction (keep the largest-area
member — `max(geom.geoms, key=lambda g: g.area)`), and the final
`geom_type != "Polygon"` guard.  `union` is `shapely.ops.unary_union`,
an external collaborator kept abstract. -/
def to_polygon_core (union : List ShpGeom → ShpGeom) (geom : ShpGeom) :
    Except String ShpGeom :=
  if shpIsEmpty geom then .error "Polygon yang diberikan kosong."
  else
    match (if gtypeOf geom = .geometryCollectionT then
        (if ((shpMembers geom).filter isPolygonal).isEmpty then
          Except.error "GeometryCollection tidak mengandung Polygon."
        else Except.ok (union ((shpMembers geom).filter isPolygonal)))
      else Except.ok geom) with
    | .error msg => .error msg
    | .ok geom1 =>
      let geom2 :=
        if gtypeOf geom1 = .multiPolygonT then
          match shpMembers geom1 with
          | [] => geom1
          | m :: ms => py_max_by shpArea m ms
        else geom1
      if gtypeOf geom2 = .polygonT then .ok geom2
      else .error "GeoJSON harus berupa Polygon."

/-- Model of `_to_polygon` (agro/services/tiling.py, lines 95-130). -/
def to_polygon (union : List ShpGeom → ShpGeom) (geojson : GeoInput) :
    Except String ShpGeom :=
  match geojson with
  | .emptyInput => .error "GeoJSON polygon tidak boleh kosong."
  | .feature none => .error "GeoJSON feature tidak memiliki geometry."
  | .feature (some g) => to_polygon_core union g
  | .featureCollection fs =>
    let geometries := fs.filterMap id
    if geometries.isEmpty then .error "FeatureCollection tidak memiliki geometry polygon."
    else to_polygon_core union (union geometries)
  | .geometry g => to_polygon_core union g

/-! ## Generic lemmas about the stable sort -/

theorem stable_insert_perm {α : Type} (le : α → α → Bool) (x : α) (l : List α) :
    (stable_insert le x l).Perm (x :: l) := by
  induction l with
  | nil => simp [stable_insert]
  | cons y ys ih =>
    simp only [stable_insert]
    split
    · exact List.Perm.refl _
    · exact (ih.cons y).trans (List.Perm.swap x y ys)

theorem py_sorted_foldl_perm {α : Type} (le : α → α → Bool) :
    ∀ (l acc : List α), (l.foldl (fun a x => stable_insert le x a) acc).Perm (acc ++ l) := by
  intro l
  induction l with
  | nil => intro acc; simp
  | cons x xs ih =>
    intro acc
    simp only [List.foldl_cons]
    refine (ih (stable_insert le x acc)).trans ?_
    refine (((stable_insert_perm le x acc).append_right xs).trans ?_)
    exact List.perm_middle.symm

theorem py_sorted_perm {α : Type} (le : α → α → Bool) (l : List α) :
    (py_sorted le l).Perm l := by
  simpa using py_sorted_foldl_perm le l []

theorem stable_insert_pairwise {α : Type} {le : α → α → Bool}
    (htot : ∀ a b, le a b || le b a)
    (htrans : ∀ a b c, le a b = true → le b c = true → le a c = true)
    (x : α) {l : List α} (h : l.Pairwise (fun a b => le a b = true)) :
    (stable_insert le x l).Pairwise (fun a b => le a b = true) := by
  induction l with
  | nil => simp [stable_insert]
  | cons y ys ih =>
    rw [List.pairwise_cons] at h
    obtain ⟨hy, hys⟩ := h
    simp only [stable_insert]
    split
    · rename_i hcond
      rw [Bool.and_eq_true] at hcond
      refine List.Pairwise.cons ?_ (List.Pairwise.cons hy hys)
      intro z hz
      rcases List.mem_cons.mp hz with hz | hz
      · exact hz ▸ hcond.1
      · exact htrans x y z hcond.1 (hy z hz)
    · rename_i hcond
      have hyx : le y x = true := by
        rcases Bool.or_eq_true_iff.mp (htot x y) with hxy | hyx
        · by_cases hyx : le y x = true
          · exact hyx
          · exact absurd (by simp [hxy, hyx]) hcond
        · exact hyx
      refine List.Pairwise.cons ?_ (ih hys)
      intro z hz
      have hz' : z ∈ x :: ys := (stable_insert_perm le x ys).mem_iff.mp hz
      rcases List.mem_cons.mp hz' with hz' | hz'
      · exact hz' ▸ hyx
      · exact hy z hz'

theorem py_sorted_pairwise {α : Type} {le : α → α → Bool}
    (htot : ∀ a b, le a b || le b a)
    (htrans : ∀ a b c, le a b = true → le b c = true → le a c = true)
    (l : List α) :
    (py_sorted le l).Pairwise (fun a b => le a b = true) := by
  have key : ∀ (l acc : List α), acc.Pairwise (fun a b => le a b = true) →
      (l.foldl (fun a x => stable_insert le x a) acc).Pairwise (fun a b => le a b = true) := by
    intro l
    induction l with
    | nil => intro acc h; simpa using h
    | cons x xs ih =>
      intro acc h
      exact ih (stable_insert le x acc) (stable_insert_pairwise htot htrans x h)
  exact key l [] (by simp)

/-! ## Claim theorems -/

/-- C5: `_apply_recommendations` is idempotent — applying the same
payload a second time leaves every tile's recommendation list and
status unchanged from the state reached after the first application. -/
theorem C5_apply_idempotent (tiles : List VTile) (p : RecPayload) :
    apply_recommendations (apply_recommendations tiles p) p = apply_recommendations tiles p := by
  simp only [apply_recommendations, List.map_map]
  refine List.map_congr_left ?_
  intro t _
  simp only [Function.comp_apply]
  cases h : ((mapping_get (build_mapping p) (tileKey t.row_index t.col_index)).getD []).isEmpty <;>
    simp [h]

/-- C6 counterexample: a payload whose tile grouping contains the
tile's key `"0-0"` with an empty recommendation list.  The key is
found, yet the tile is not marked enriched — its status stays
`collected`, refuting "if found, the tile ... is marked enriched". -/
theorem C6_counterexample :
    mapping_get (build_mapping (RecPayload.mk (some [RecPayloadTile.mk (some "0-0") []])))
        (tileKey 0 0) = some []
    ∧ apply_recommendations [VTile.mk 0 0 [] .collected]
        (RecPayload.mk (some [RecPayloadTile.mk (some "0-0") []]))
      = [VTile.mk 0 0 [] .collected]
    ∧ TileStatus.collected ≠ TileStatus.enriched :=
  ⟨rfl, rfl, by decide⟩

/-- C6 (amended): `apply` looks the tile's `"{row}-{col}"` key up in
the payload's tile grouping; if found with a non-empty list the tile
receives that ordered list and is marked enriched; if found with an
empty list, or absent, the tile receives the empty list and its status
is unchanged; a payload missing the top-level `"tiles"` key is treated
as no recommendations for any tile. -/
theorem C6_amended (tiles : List VTile) (p : RecPayload) :
    (∀ (i : Nat) (t : VTile), tiles[i]? = some t →
      ∃ t', (apply_recommendations tiles p)[i]? = some t' ∧
        t'.row_index = t.row_index ∧ t'.col_index = t.col_index ∧
        (∀ rs, mapping_get (build_mapping p) (tileKey t.row_index t.col_index) = some rs →
          t'.gemini_recommendations = rs ∧
          (rs ≠ [] → t'.status = .enriched) ∧ (rs = [] → t'.status = t.status)) ∧
        (mapping_get (build_mapping p) (tileKey t.row_index t.col_index) = none →
          t'.gemini_recommendations = [] ∧ t'.status = t.status)) ∧
    (p.tiles = none →
      apply_recommendations tiles p =
        tiles.map (fun t => { t with gemini_recommendations := [] })) := by
  constructor
  · intro i t ht
    refine ⟨{ t with
        gemini_recommendations :=
          (mapping_get (build_mapping p) (tileKey t.row_index t.col_index)).getD []
        status :=
          if ((mapping_get (build_mapping p) (tileKey t.row_index t.col_index)).getD []).isEmpty
          then t.status else .enriched },
      by simp [apply_recommendations, ht], rfl, rfl, ?_, ?_⟩
    · intro rs hrs
      refine ⟨by simp [hrs], ?_, ?_⟩
      · intro hne
        have hfalse : rs.isEmpty = false := by
          cases rs with
          | nil => exact absurd rfl hne
          | cons a l => rfl
        simp [hrs, hfalse]
      · intro he
        subst he
        simp [hrs]
    · intro hrs
      simp [hrs]
  · intro hnone
    rcases p with ⟨pt⟩
    cases hnone
    simp [apply_recommendations, build_mapping, mapping_get]

/-- Witness for C6 (amended) at a concrete tile and payload: key
`"1-2"` found with a non-empty list enriches the tile. -/
theorem C6_amended_witness :
    ∃ t', (apply_recommendations [VTile.mk 1 2 [] .collected]
        (RecPayload.mk (some [RecPayloadTile.mk (some "1-2") [Rec.mk "Rice" .pnull]])))[0]?
      = some t'
      ∧ t'.gemini_recommendations = [Rec.mk "Rice" .pnull]
      ∧ t'.status = .enriched := by
  obtain ⟨t', hget, hrow, hcol, hsome, hnone⟩ :=
    (C6_amended [VTile.mk 1 2 [] .collected]
      (RecPayload.mk (some [RecPayloadTile.mk (some "1-2") [Rec.mk "Rice" .pnull]]))).1
      0 (VTile.mk 1 2 [] .collected) rfl
  obtain ⟨hrecs, hne, _⟩ := hsome [Rec.mk "Rice" .pnull] rfl
  exact ⟨t', hget, hrecs, hne (by simp)⟩

/-- Assoc-list lookup over a keyed map of a duplicate-free list finds
the mapped value. -/
theorem lookup_map_self {α β : Type} [DecidableEq α] (f : α → β) :
    ∀ (l : List α) (n : α), n ∈ l → l.Nodup →
      (l.map (fun x => (x, f x))).lookup n = some (f n) := by
  intro l
  induction l with
  | nil => intro n hn; simp at hn
  | cons a as ih =>
    intro n hn hnd
    rw [List.nodup_cons] at hnd
    rcases List.mem_cons.mp hn with h | h
    · subst h
      simp [List.lookup]
    · have hne : (n == a) = false := by
        refine beq_false_of_ne ?_
        intro he
        exact hnd.1 (he ▸ h)
      simp [List.lookup, hne, ih n h hnd.2]

/-- C2: for every behaviour of the six providers and every completion
order of their futures, `GEEVariableService.collect` returns a map with
exactly one entry per provider name; a failing provider's entry is the
`{status: "error", message: ...}` record; no provider exception escapes
(`collect` is a total function of the behaviours — every raised
exception is absorbed by `safe_call`). -/
theorem C2_collect_isolates_failures (bhv : ProviderBehavior) (order : List ProviderName)
    (h : order.Perm provider_names) :
    collect bhv order = provider_names.map (fun n => (n, safe_call (bhv n)))
    ∧ (collect bhv order).map Prod.fst = provider_names
    ∧ (∀ n msg, bhv n = .error msg →
        (collect bhv order).lookup n = some (errorRecord msg)) := by
  have hmemall : ∀ n : ProviderName, n ∈ provider_names := by
    intro n; cases n <;> simp [provider_names]
  have hnodup : provider_names.Nodup := by decide
  have hcanon : collect bhv order = provider_names.map (fun n => (n, safe_call (bhv n))) := by
    unfold collect collect_results
    refine List.map_congr_left ?_
    intro n _
    have hmem : n ∈ order := h.mem_iff.mpr (hmemall n)
    have hnd : order.Nodup := (h.nodup_iff).mpr hnodup
    rw [lookup_map_self (fun x => safe_call (bhv x)) order n hmem hnd]
    rfl
  refine ⟨hcanon, ?_, ?_⟩
  · rw [hcanon]
    simp [Function.comp_def]
  · intro n msg hmsg
    rw [hcanon]
    rw [lookup_map_self (fun x => safe_call (bhv x)) provider_names n (hmemall n) hnodup]
    simp [safe_call, hmsg]

/-- Witness for C2: a concrete behaviour where the soil provider
raises, evaluated at a reversed completion order. -/
theorem C2_collect_isolates_failures_witness :
    collect
        (fun n => match n with
          | .soil => .error "quota exceeded"
          | _ => .ok (.pdict [("status", .pstr "ok")]))
        [.nighttime, .seasonal, .landcover, .topography, .soil, .climate]
      = [(.climate, .pdict [("status", .pstr "ok")]),
         (.soil, errorRecord "quota exceeded"),
         (.topography, .pdict [("status", .pstr "ok")]),
         (.landcover, .pdict [("status", .pstr "ok")]),
         (.seasonal, .pdict [("status", .pstr "ok")]),
         (.nighttime, .pdict [("status", .pstr "ok")])] := by
  rw [(C2_collect_isolates_failures
      (fun n => match n with
        | .soil => .error "quota exceeded"
        | _ => .ok (.pdict [("status", .pstr "ok")]))
      [.nighttime, .seasonal, .landcover, .topography, .soil, .climate]
      (by decide)).1]
  rfl

/-- C10 counterexample: a JSON body whose `tile_size` is the
non-standard constant `Infinity` (accepted by CPython's `json.loads`).
`int(float("inf"))` raises `OverflowError`, which the
`except (TypeError, ValueError)` guard does not catch, so the request
ends in an uncaught exception (server error), not an HTTP 400 — yet
this `tile_size` "cannot be converted to an integer". -/
theorem C10_counterexample :
    pyInt (.jinf true) = .error .overflowError
    ∧ process_area_gate (some (.jobj
        [("geometry", .jobj [("type", .jstr "Polygon")]), ("tile_size", .jinf true)]))
      = .serverError .overflowError
    ∧ (∀ msg, GateOutcome.serverError .overflowError ≠ .badRequest msg) :=
  ⟨rfl, rfl, fun _ h => by cases h⟩

/-- C10 (amended): with a truthy geometry present, the request is
rejected with HTTP 400 when `int(tile_size)` raises `TypeError` or
`ValueError`, or when the converted value is outside 5..100; an
infinite float raises an uncaught `OverflowError` (server error, not a
400); tiling proceeds (and only then are Area/Tile records created)
exactly for integer values in the inclusive range 5..100. -/
theorem C10_amended (payload : JVal)
    (hgeom : jTruthy (jGetD payload "geometry" .jnull) = true) :
    (∀ n : ℤ, process_area_gate (some payload) = .proceeds n ↔
      (pyInt (jGetD payload "tile_size" (.jint 15)) = .ok n ∧ 5 ≤ n ∧ n ≤ 100))
    ∧ ((pyInt (jGetD payload "tile_size" (.jint 15)) = .error .typeError
        ∨ pyInt (jGetD payload "tile_size" (.jint 15)) = .error .valueError) →
      process_area_gate (some payload) = .badRequest "Ukuran tile harus berupa angka.")
    ∧ (∀ n : ℤ, pyInt (jGetD payload "tile_size" (.jint 15)) = .ok n → (n < 5 ∨ 100 < n) →
      process_area_gate (some payload) = .badRequest "Ukuran tile harus antara 5 dan 100 meter.")
    ∧ (pyInt (jGetD payload "tile_size" (.jint 15)) = .error .overflowError →
      process_area_gate (some payload) = .serverError .overflowError) := by
  have hgate : process_area_gate (some payload) =
      (match pyInt (jGetD payload "tile_size" (.jint 15)) with
        | .error .typeError => .badRequest "Ukuran tile harus berupa angka."
        | .error .valueError => .badRequest "Ukuran tile harus berupa angka."
        | .error e => .serverError e
        | .ok tile_size =>
          if tile_size < 5 ∨ tile_size > 100 then
            .badRequest "Ukuran tile harus antara 5 dan 100 meter."
          else .proceeds tile_size) := by
    simp [process_area_gate, hgeom]
  rcases hint : pyInt (jGetD payload "tile_size" (.jint 15)) with e | m
  · rw [hint] at hgate
    cases e <;> refine ⟨?_, ?_, ?_, ?_⟩ <;> simp [hgate, hint]
  · rw [hint] at hgate
    have hgate2 : process_area_gate (some payload) =
        if m < 5 ∨ m > 100 then
          GateOutcome.badRequest "Ukuran tile harus antara 5 dan 100 meter."
        else .proceeds m := hgate
    refine ⟨?_, ?_, ?_, ?_⟩
    · intro n
      rw [hgate2]
      by_cases hr : m < 5 ∨ m > 100
      · rw [if_pos hr]
        constructor
        · intro h
          exact absurd h (by simp)
        · rintro ⟨h1, h2, h3⟩
          injection h1 with h1
          exact absurd hr (by omega)
      · rw [if_neg hr]
        constructor
        · intro h
          injection h with h
          subst h
          push_neg at hr
          exact ⟨rfl, hr.1, hr.2⟩
        · rintro ⟨h1, -, -⟩
          injection h1 with h1
          rw [h1]
    · intro h
      rcases h with h | h <;> simp at h
    · intro n h1 h2
      injection h1 with h1
      subst h1
      rw [hgate2, if_pos (by omega)]
    · intro h
      simp at h

/-- Witness for C10 (amended): a body with geometry and no
`tile_size` key proceeds with the default size 15. -/
theorem C10_amended_witness :
    process_area_gate (some (.jobj [("geometry", .jobj [("type", .jstr "Polygon")])]))
      = .proceeds 15 := by
  exact ((C10_amended (.jobj [("geometry", .jobj [("type", .jstr "Polygon")])]) rfl).1 15).mpr
    ⟨rfl, by norm_num, by norm_num⟩

theorem rowColLe_total (a b : TileGeom × PyVal) : rowColLe a b || rowColLe b a := by
  simp only [rowColLe, Bool.or_eq_true, Bool.and_eq_true, decide_eq_true_eq]
  omega

theorem rowColLe_trans (a b c : TileGeom × PyVal) :
    rowColLe a b = true → rowColLe b c = true → rowColLe a c = true := by
  simp only [rowColLe, Bool.or_eq_true, Bool.and_eq_true, decide_eq_true_eq]
  omega

/-- C3: for every list of tile geometries, every behaviour of the
per-tile collect call and every completion order of the futures,
`_collect_variables` persists exactly one tile row per input geometry
with a non-null centroid (null-centroid geometries are skipped), a
raised collect call still yields a row carrying the error record with
status `"collected"`, rows are inserted in ascending (row, col) order
regardless of completion order, and the worker-pool size is
`max(1, min(GEE_MAX_WORKERS default 4, number of valid tiles))`. -/
theorem C3_collect_variables_ok (outcome : TileGeom → Except String PyVal)
    (completion tile_geoms : List TileGeom)
    (h : completion.Perm (validTileGeoms tile_geoms)) (cfg : Option ℤ) :
    (collect_variables outcome completion tile_geoms).Perm
        ((validTileGeoms tile_geoms).map
          (fun g => mkDbTile g (make_json_safe (tile_result_or_error (outcome g)))))
    ∧ (∀ t ∈ collect_variables outcome completion tile_geoms,
        t.centroid_lat.isSome ∧ t.centroid_lon.isSome ∧ t.status = .collected)
    ∧ (∀ g ∈ validTileGeoms tile_geoms, ∀ msg, outcome g = .error msg →
        mkDbTile g (errorRecord msg) ∈ collect_variables outcome completion tile_geoms)
    ∧ List.Pairwise
        (fun a b => a.row_index < b.row_index ∨
          (a.row_index = b.row_index ∧ a.col_index ≤ b.col_index))
        (collect_variables outcome completion tile_geoms)
    ∧ gee_pool_size cfg (validTileGeoms tile_geoms).length
        = max 1 (min (cfg.getD 4) ((validTileGeoms tile_geoms).length : ℤ)) := by
  by_cases hv : (validTileGeoms tile_geoms).isEmpty
  · have hvnil : validTileGeoms tile_geoms = [] := List.isEmpty_iff.mp hv
    have hout : collect_variables outcome completion tile_geoms = [] := by
      simp [collect_variables, hv]
    rw [hout, hvnil]
    refine ⟨by simp, by simp, by simp, by simp, rfl⟩
  · have hout : collect_variables outcome completion tile_geoms =
        (py_sorted rowColLe (completion.map
          (fun g => (g, make_json_safe (tile_result_or_error (outcome g)))))).map
          (fun gv => mkDbTile gv.1 gv.2) := by
      simp [collect_variables, hv]
    have hsort : (py_sorted rowColLe (completion.map
        (fun g => (g, make_json_safe (tile_result_or_error (outcome g)))))).Perm
        (completion.map (fun g => (g, make_json_safe (tile_result_or_error (outcome g))))) :=
      py_sorted_perm _ _
    have hres : (completion.map
        (fun g => (g, make_json_safe (tile_result_or_error (outcome g))))).Perm
        ((validTileGeoms tile_geoms).map
          (fun g => (g, make_json_safe (tile_result_or_error (outcome g))))) :=
      h.map _
    refine ⟨?_, ?_, ?_, ?_, rfl⟩
    · rw [hout]
      refine ((hsort.trans hres).map _).trans ?_
      rw [List.map_map]
      exact List.Perm.refl _
    · intro t ht
      rw [hout] at ht
      obtain ⟨gv, hgv, rfl⟩ := List.mem_map.mp ht
      have hgv' : gv ∈ completion.map
          (fun g => (g, make_json_safe (tile_result_or_error (outcome g)))) :=
        hsort.mem_iff.mp hgv
      obtain ⟨g, hg, rfl⟩ := List.mem_map.mp hgv'
      have hgvalid : g ∈ validTileGeoms tile_geoms := h.mem_iff.mp hg
      have hpred := (List.mem_filter.mp hgvalid).2
      rw [Bool.and_eq_true] at hpred
      exact ⟨hpred.1, hpred.2, rfl⟩
    · intro g hg msg hmsg
      rw [hout]
      have hgc : g ∈ completion := h.mem_iff.mpr hg
      have hmem : (g, make_json_safe (tile_result_or_error (outcome g))) ∈
          completion.map (fun g => (g, make_json_safe (tile_result_or_error (outcome g)))) :=
        List.mem_map_of_mem _ hgc
      have hmem' := hsort.mem_iff.mpr hmem
      have := List.mem_map_of_mem (fun gv => mkDbTile gv.1 gv.2) hmem'
      simpa [tile_result_or_error, hmsg, make_json_safe_errorRecord] using this
    · rw [hout]
      have hpw := py_sorted_pairwise rowColLe_total rowColLe_trans
        (completion.map (fun g => (g, make_json_safe (tile_result_or_error (outcome g)))))
      rw [List.pairwise_map]
      refine hpw.imp ?_
      intro a b hab
      simp only [rowColLe, Bool.or_eq_true, Bool.and_eq_true, decide_eq_true_eq] at hab
      exact hab

/-- Witness for C3 at three tile geometries (one with a null centroid,
skipped), a reversed completion order and a collect call that raises on
tile (1, 0): the error-record row is still persisted. -/
theorem C3_collect_variables_ok_witness :
    mkDbTile (TileGeom.mk 1 0 (some 4) (some 5) .pnull) (errorRecord "boom") ∈
      collect_variables
        (fun g => if g.row = 1 then .error "boom" else .ok (.pdict []))
        [TileGeom.mk 1 0 (some 4) (some 5) .pnull, TileGeom.mk 0 0 (some 1) (some 2) .pnull]
        [TileGeom.mk 0 0 (some 1) (some 2) .pnull, TileGeom.mk 0 1 none (some 3) .pnull,
          TileGeom.mk 1 0 (some 4) (some 5) .pnull] := by
  have hv : validTileGeoms
      [TileGeom.mk 0 0 (some 1) (some 2) .pnull, TileGeom.mk 0 1 none (some 3) .pnull,
        TileGeom.mk 1 0 (some 4) (some 5) .pnull]
      = [TileGeom.mk 0 0 (some 1) (some 2) .pnull, TileGeom.mk 1 0 (some 4) (some 5) .pnull] := rfl
  refine (C3_collect_variables_ok
      (fun g => if g.row = 1 then .error "boom" else .ok (.pdict []))
      [TileGeom.mk 1 0 (some 4) (some 5) .pnull, TileGeom.mk 0 0 (some 1) (some 2) .pnull]
      _ ?_ none).2.2.1 _ ?_ "boom" rfl
  · rw [hv]
    exact List.Perm.swap _ _ _
  · rw [hv]
    exact List.mem_cons_of_mem _ (List.mem_cons_self _ _)

/-! ### Counter bookkeeping for the aggregator -/

/-- The first-ranked plant labels of the tiles: one label per tile with
a non-empty recommendation list, in tile order (the quantity the
dominant counter counts). -/
def firstPlants (tiles : List AgTile) : List String :=
  tiles.filterMap (fun t =>
    match recsOf t with
    | [] => none
    | r :: _ => some r.plant)

/-- The distinct labels of a list in order of first occurrence (the
insertion order of the counter's keys). -/
def firstSeen (l : List String) : List String :=
  l.foldl (fun acc k => if k ∈ acc then acc else acc ++ [k]) []

/-- Keys of a counter. -/
def keysOf (c : List (String × Nat)) : List String := c.map Prod.fst

theorem keys_counter_add (c : List (String × Nat)) (k : String) :
    keysOf (counter_add c k) = if k ∈ keysOf c then keysOf c else keysOf c ++ [k] := by
  unfold counter_add
  have hany : c.any (fun e => e.1 = k) = decide (k ∈ keysOf c) := by
    rcases h : c.any (fun e => e.1 = k) with hf | ht
    · rw [List.any_eq_false] at h
      have hnk : k ∉ keysOf c := by
        intro hk
        obtain ⟨e, he, hek⟩ := List.mem_map.mp hk
        have := h e he
        simp [hek] at this
      simp [hnk]
    · rw [List.any_eq_true] at h
      obtain ⟨e, he, hek⟩ := h
      have hk : k ∈ keysOf c := List.mem_map.mpr ⟨e, he, by simpa using hek⟩
      simp [hk]
  rw [hany]
  by_cases hk : k ∈ keysOf c
  · rw [if_pos hk, if_pos (by simpa using hk)]
    unfold keysOf
    rw [List.map_map]
    refine List.map_congr_left ?_
    intro e _
    by_cases he : e.1 = k <;> simp [he]
  · rw [if_neg hk, if_neg (by simpa using hk)]
    simp [keysOf]

theorem nodup_counter_add (c : List (String × Nat)) (k : String)
    (h : (keysOf c).Nodup) : (keysOf (counter_add c k)).Nodup := by
  rw [keys_counter_add]
  by_cases hk : k ∈ keysOf c
  · rwa [if_pos hk]
  · rw [if_neg hk]
    simp [List.nodup_append, h, hk]

theorem find?_bump (es : List (String × Nat)) (k k' : String) :
    (es.map (fun e => if e.1 = k then (e.1, e.2 + 1) else e)).find? (fun x => x.1 = k')
      = (es.find? (fun x => x.1 = k')).map
          (fun e => if e.1 = k then (e.1, e.2 + 1) else e) := by
  induction es with
  | nil => rfl
  | cons e es ih =>
    by_cases hk' : e.1 = k'
    · have hbk : ((if e.1 = k then (e.1, e.2 + 1) else e) : String × Nat).1 = k' := by
        split <;> exact hk'
      rw [List.map_cons, List.find?_cons_of_pos _ (by simpa using hbk),
        List.find?_cons_of_pos _ (by simpa using hk')]
      rfl
    · have hbk : ¬ (((if e.1 = k then (e.1, e.2 + 1) else e) : String × Nat).1 = k') := by
        split <;> exact hk'
      rw [List.map_cons, List.find?_cons_of_neg _ (by simpa using hbk),
        List.find?_cons_of_neg _ (by simpa using hk'), ih]

theorem find?_counter_add_other (c : List (String × Nat)) (k k' : String)
    (hne : k' ≠ k) :
    (counter_add c k).find? (fun x => x.1 = k') = c.find? (fun x => x.1 = k') := by
  unfold counter_add
  by_cases hany : c.any (fun e => e.1 = k)
  · rw [if_pos hany, find?_bump]
    rcases hf : c.find? (fun x => x.1 = k') with _ | e
    · rw [hf]
      rfl
    · have hek' : e.1 = k' := by simpa using List.find?_some hf
      have hek : ¬ e.1 = k := fun h => hne (hek'.symm.trans h)
      rw [hf]
      simp [hek]
  · rw [if_neg hany, List.find?_append]
    have h1 : ([((k : String), (1 : Nat))].find? (fun x => x.1 = k')) = none := by
      simp [Ne.symm hne]
    rw [h1]
    cases c.find? (fun x => x.1 = k') <;> rfl

theorem find?_counter_add_self (c : List (String × Nat)) (k : String) :
    ((counter_add c k).find? (fun x => x.1 = k)).map Prod.snd
      = some ((((c.find? (fun x => x.1 = k)).map Prod.snd).getD 0) + 1) := by
  unfold counter_add
  by_cases hany : c.any (fun e => e.1 = k)
  · rw [if_pos hany, find?_bump]
    obtain ⟨e, hmem, he⟩ := List.any_eq_true.mp hany
    have hsome : (c.find? (fun x => x.1 = k)).isSome := by
      rw [List.find?_isSome]
      exact ⟨e, hmem, he⟩
    rcases hf : c.find? (fun x => x.1 = k) with _ | e'
    · rw [hf] at hsome
      cases hsome
    · have hek : e'.1 = k := by simpa using List.find?_some hf
      rw [hf]
      simp [hek]
  · rw [if_neg hany, List.find?_append]
    have hall : c.any (fun e => e.1 = k) = false := Bool.eq_false_iff.mpr hany
    have h0 : c.find? (fun x => x.1 = k) = none := by
      rw [List.find?_eq_none]
      intro x hx
      have := List.any_eq_false.mp hall x hx
      simpa using this
    rw [h0]
    simp

theorem find?_of_mem_nodupkeys (k : String) (n : Nat) :
    ∀ (c : List (String × Nat)), (keysOf c).Nodup → (k, n) ∈ c →
      c.find? (fun x => x.1 = k) = some (k, n) := by
  intro c
  induction c with
  | nil => intro _ hm; simp at hm
  | cons e es ih =>
    intro hnd hm
    have hnd' := hnd
    rw [keysOf, List.map_cons, List.nodup_cons] at hnd'
    rcases List.mem_cons.mp hm with he | he
    · subst he
      exact List.find?_cons_of_pos _ (by simp)
    · have hke : ¬ e.1 = k := by
        intro hek
        exact hnd'.1 (hek ▸ List.mem_map.mpr ⟨(k, n), he, rfl⟩)
      rw [List.find?_cons_of_neg _ (by simpa using hke)]
      exact ih hnd'.2 he

theorem counter_fold_spec :
    ∀ (l : List String) (c : List (String × Nat)), (keysOf c).Nodup →
      (keysOf (l.foldl counter_add c)).Nodup
      ∧ keysOf (l.foldl counter_add c)
          = l.foldl (fun acc k => if k ∈ acc then acc else acc ++ [k]) (keysOf c)
      ∧ ∀ k n, (k, n) ∈ l.foldl counter_add c →
          n = (((c.find? (fun x => x.1 = k)).map Prod.snd).getD 0) + l.count k := by
  intro l
  induction l with
  | nil =>
    intro c hnd
    refine ⟨hnd, rfl, ?_⟩
    intro k n hm
    rw [find?_of_mem_nodupkeys k n c hnd hm]
    simp
  | cons k0 l' ih =>
    intro c hnd
    rw [List.foldl_cons, List.foldl_cons]
    obtain ⟨h1, h2, h3⟩ := ih (counter_add c k0) (nodup_counter_add c k0 hnd)
    refine ⟨h1, ?_, ?_⟩
    · rw [h2, keys_counter_add]
    · intro k n hm
      have hn := h3 k n hm
      by_cases hk : k = k0
      · subst hk
        have hself := find?_counter_add_self c k
        have : (((counter_add c k).find? (fun x => x.1 = k)).map Prod.snd).getD 0
            = (((c.find? (fun x => x.1 = k)).map Prod.snd).getD 0) + 1 := by
          rw [hself]
          rfl
        rw [this] at hn
        rw [List.count_cons_self]
        omega
      · rw [find?_counter_add_other c k0 k hk] at hn
        rw [List.count_cons_of_ne hk]
        exact hn

/-- The numeric `ndvi` values present across the tiles (claim-side
collector: present and numeric, otherwise excluded). -/
def ndviValues (tiles : List AgTile) : List ℚ :=
  tiles.filterMap (fun t =>
    if pyIsNumber (ndviLookup t) then some (pyNumVal (ndviLookup t)) else none)

/-- The numeric `ndwi` values present across the tiles. -/
def ndwiValues (tiles : List AgTile) : List ℚ :=
  tiles.filterMap (fun t =>
    if pyIsNumber (ndwiLookup t) then some (pyNumVal (ndwiLookup t)) else none)

/-- The numeric precipitation values across the tiles, per the code's
`or`-fallback lookup. -/
def precipValues (tiles : List AgTile) : List ℚ :=
  tiles.filterMap (fun t =>
    if pyIsNumber (precipLookup t) then some (pyNumVal (precipLookup t)) else none)

theorem summary_fold_spec :
    ∀ (tiles : List AgTile) (acc : SummaryAcc),
      (tiles.foldl summary_step acc).counter
          = (firstPlants tiles).foldl counter_add acc.counter
      ∧ (tiles.foldl summary_step acc).ndvi_values = acc.ndvi_values ++ ndviValues tiles
      ∧ (tiles.foldl summary_step acc).ndwi_values = acc.ndwi_values ++ ndwiValues tiles
      ∧ (tiles.foldl summary_step acc).precip_values = acc.precip_values ++ precipValues tiles := by
  intro tiles
  induction tiles with
  | nil => intro acc; simp [firstPlants, ndviValues, ndwiValues, precipValues]
  | cons t ts ih =>
    intro acc
    rw [List.foldl_cons]
    obtain ⟨h1, h2, h3, h4⟩ := ih (summary_step acc t)
    refine ⟨?_, ?_, ?_, ?_⟩
    · rw [h1]
      have hfp : firstPlants (t :: ts)
          = (match recsOf t with
             | [] => firstPlants ts
             | r :: _ => r.plant :: firstPlants ts) := by
        unfold firstPlants
        rw [List.filterMap_cons]
        rcases recsOf t with _ | ⟨r, rs⟩ <;> rfl
      rw [hfp]
      rcases hr : recsOf t with _ | ⟨r, rs⟩
      · simp [summary_step, hr]
      · rw [List.foldl_cons]
        simp [summary_step, hr]
    · rw [h2]
      have hnv : ndviValues (t :: ts)
          = (if pyIsNumber (ndviLookup t) then [pyNumVal (ndviLookup t)] else []) ++ ndviValues ts := by
        unfold ndviValues
        rw [List.filterMap_cons]
        by_cases hn : pyIsNumber (ndviLookup t) <;> simp [hn]
      rw [hnv]
      by_cases hn : pyIsNumber (ndviLookup t) <;> simp [summary_step, hn]
    · rw [h3]
      have hnv : ndwiValues (t :: ts)
          = (if pyIsNumber (ndwiLookup t) then [pyNumVal (ndwiLookup t)] else []) ++ ndwiValues ts := by
        unfold ndwiValues
        rw [List.filterMap_cons]
        by_cases hn : pyIsNumber (ndwiLookup t) <;> simp [hn]
      rw [hnv]
      by_cases hn : pyIsNumber (ndwiLookup t) <;> simp [summary_step, hn]
    · rw [h4]
      have hnv : precipValues (t :: ts)
          = (if pyIsNumber (precipLookup t) then [pyNumVal (precipLookup t)] else []) ++ precipValues ts := by
        unfold precipValues
        rw [List.filterMap_cons]
        by_cases hn : pyIsNumber (precipLookup t) <;> simp [hn]
      rw [hnv]
      by_cases hn : pyIsNumber (precipLookup t) <;> simp [summary_step, hn]

theorem mc_le_total (a b : Nat × (String × Nat)) : mc_le a b || mc_le b a := by
  simp only [mc_le, Bool.or_eq_true, Bool.and_eq_true, decide_eq_true_eq]
  omega

theorem mc_le_trans (a b c : Nat × (String × Nat)) :
    mc_le a b = true → mc_le b c = true → mc_le a c = true := by
  simp only [mc_le, Bool.or_eq_true, Bool.and_eq_true, decide_eq_true_eq]
  omega

/-- C4: `build_summary` counts, for every tile with a non-empty
recommendation list, its first-ranked plant label; the dominant list
has one entry per distinct first-ranked label, sorted by descending
tile count with ties in first-seen order; each entry's average
confidence is the mean over the numeric confidences of that plant at
any rank in any tile; and the spec scenario (Rice 0.9 / Rice 0.7 /
Corn 0.5) aggregates to Rice(2, 0.8), Corn(1, 0.5). -/
theorem C4_dominant_categories (area : AgArea) (tiles : List AgTile) :
    (((build_summary area tiles).dominant_crops.map (fun e => e.plant)).Perm
        (firstSeen (firstPlants tiles)))
    ∧ (∀ e ∈ (build_summary area tiles).dominant_crops,
        e.tiles = (firstPlants tiles).count e.plant
        ∧ e.avg_confidence = average_confidence tiles e.plant)
    ∧ List.Pairwise
        (fun a b => b.tiles < a.tiles ∨ (a.tiles = b.tiles ∧
          ∃ i j : Nat, i ≤ j ∧ (firstSeen (firstPlants tiles))[i]? = some a.plant
            ∧ (firstSeen (firstPlants tiles))[j]? = some b.plant))
        (build_summary area tiles).dominant_crops
    ∧ build_summary (AgArea.mk none)
        [AgTile.mk (.pdict []) (some [Rec.mk "Rice" (.pfloat (9/10))]),
         AgTile.mk (.pdict []) (some [Rec.mk "Rice" (.pfloat (7/10))]),
         AgTile.mk (.pdict []) (some [Rec.mk "Corn" (.pfloat (5/10))])]
      = Summary.mk 3
          [DominantEntry.mk "Rice" 2 (4/5), DominantEntry.mk "Corn" 1 (1/2)]
          [] 0 := by
  obtain ⟨hc0, -, -, -⟩ := summary_fold_spec tiles ⟨[], [], [], []⟩
  have hc : (tiles.foldl summary_step ⟨[], [], [], []⟩).counter
      = (firstPlants tiles).foldl counter_add [] := hc0
  obtain ⟨hnd0, hkeys0, hcount⟩ := counter_fold_spec (firstPlants tiles) [] (by simp [keysOf])
  have hkeys : keysOf ((firstPlants tiles).foldl counter_add [])
      = firstSeen (firstPlants tiles) := hkeys0
  have hdom : (build_summary area tiles).dominant_crops
      = (most_common ((firstPlants tiles).foldl counter_add [])).map
          (fun e => DominantEntry.mk e.1 e.2 (average_confidence tiles e.1)) := by
    simp only [build_summary]
    rw [hc]
  have hsperm : (py_sorted mc_le (((firstPlants tiles).foldl counter_add []).enum)).Perm
      (((firstPlants tiles).foldl counter_add []).enum) := py_sorted_perm _ _
  refine ⟨?_, ?_, ?_, ?_⟩
  · rw [hdom]
    unfold most_common
    rw [List.map_map, List.map_map]
    have hmaps : ((fun e => DominantEntry.mk e.1 e.2 (average_confidence tiles e.1)) ∘
          (fun (e : Nat × String × Nat) => e.2)) = fun (e : Nat × String × Nat) =>
        DominantEntry.mk e.2.1 e.2.2 (average_confidence tiles e.2.1) := rfl
    refine ((hsperm.map _).trans ?_)
    have : (((firstPlants tiles).foldl counter_add []).enum).map
        (fun (e : Nat × String × Nat) =>
          (DominantEntry.plant ∘ fun e => DominantEntry.mk e.2.1 e.2.2 (average_confidence tiles e.2.1)) e)
        = keysOf ((firstPlants tiles).foldl counter_add []) := by
      have h1 : (((firstPlants tiles).foldl counter_add []).enum).map
          (fun (e : Nat × String × Nat) => e.2.1)
          = ((((firstPlants tiles).foldl counter_add []).enum).map Prod.snd).map Prod.fst := by
        rw [List.map_map]
        rfl
      calc (((firstPlants tiles).foldl counter_add []).enum).map _
          = ((((firstPlants tiles).foldl counter_add []).enum).map Prod.snd).map Prod.fst := h1
        _ = keysOf ((firstPlants tiles).foldl counter_add []) := by
            rw [List.enum_map_snd]
            rfl
    rw [← hkeys, ← this]
    exact List.Perm.refl _
  · intro e he
    rw [hdom] at he
    obtain ⟨kc, hkc, rfl⟩ := List.mem_map.mp he
    refine ⟨?_, rfl⟩
    unfold most_common at hkc
    obtain ⟨x, hx, rfl⟩ := List.mem_map.mp hkc
    have hxe : x ∈ (((firstPlants tiles).foldl counter_add []).enum) := hsperm.mem_iff.mp hx
    have hgetc : ((firstPlants tiles).foldl counter_add [])[x.1]? = some x.2 :=
      List.mem_enum_iff_getElem?.mp hxe
    have hmemc : (x.2.1, x.2.2) ∈ (firstPlants tiles).foldl counter_add [] := by
      simpa using List.getElem?_mem hgetc
    have hn := hcount x.2.1 x.2.2 hmemc
    simpa using hn
  · rw [hdom]
    unfold most_common
    rw [List.map_map]
    rw [List.pairwise_map]
    have hpw := py_sorted_pairwise mc_le_total mc_le_trans
      (((firstPlants tiles).foldl counter_add []).enum)
    refine hpw.imp_of_mem ?_
    intro a b ha hb hab
    have hidx : ∀ y ∈ py_sorted mc_le (((firstPlants tiles).foldl counter_add []).enum),
        (firstSeen (firstPlants tiles))[y.1]? = some y.2.1 := by
      intro y hy
      have hye : y ∈ (((firstPlants tiles).foldl counter_add []).enum) := hsperm.mem_iff.mp hy
      have hget : ((firstPlants tiles).foldl counter_add [])[y.1]? = some y.2 :=
        List.mem_enum_iff_getElem?.mp hye
      rw [← hkeys]
      unfold keysOf
      rw [List.getElem?_map, hget]
      rfl
    simp only [mc_le, Bool.or_eq_true, Bool.and_eq_true, decide_eq_true_eq] at hab
    rcases hab with hlt | ⟨heq, hle⟩
    · exact Or.inl hlt
    · exact Or.inr ⟨heq, a.1, b.1, hle, hidx a ha, hidx b hb⟩
  · simp +decide [build_summary, summary_step, counter_add, most_common, mc_le, py_sorted,
      stable_insert, recsOf, ndviLookup, ndwiLookup, precipLookup, pyGet, pyGetD,
      pyIsNumber, pyNumVal, average_confidence, processingSecondsOf, pyMean,
      List.enum, List.enumFrom, List.lookup]
    norm_num

/-- Witness for C4 at the spec scenario: the Rice entry's tile count
equals the number of tiles whose first-ranked label is Rice. -/
theorem C4_dominant_categories_witness :
    (DominantEntry.mk "Rice" 2 (4/5)).tiles
      = (firstPlants
          [AgTile.mk (.pdict []) (some [Rec.mk "Rice" (.pfloat (9/10))]),
           AgTile.mk (.pdict []) (some [Rec.mk "Rice" (.pfloat (7/10))]),
           AgTile.mk (.pdict []) (some [Rec.mk "Corn" (.pfloat (5/10))])]).count
          (DominantEntry.mk "Rice" 2 (4/5)).plant := by
  have h := C4_dominant_categories (AgArea.mk none)
    [AgTile.mk (.pdict []) (some [Rec.mk "Rice" (.pfloat (9/10))]),
     AgTile.mk (.pdict []) (some [Rec.mk "Rice" (.pfloat (7/10))]),
     AgTile.mk (.pdict []) (some [Rec.mk "Corn" (.pfloat (5/10))])]
  refine (h.2.1 (DominantEntry.mk "Rice" 2 (4/5)) ?_).1
  have hdc := congrArg Summary.dominant_crops h.2.2.2
  rw [hdc]
  exact List.mem_cons_self _ _

/-- C7 counterexample: a tile whose nested
`seasonal.data.long_term_avg_precip_mm` is the present numeric value
`0`.  The Python `or` fallback treats `0` as falsy, falls through to
the absent flat key, and the value is excluded: `env_summary` omits
precipitation although one tile contributes a numeric value — the
claim's mean (`0.0 mm`) is not reported. -/
theorem C7_counterexample :
    pyIsNumber (pyGet (pyGetD (pyGetD
        (PyVal.pdict [("seasonal", .pdict [("data", .pdict
          [("long_term_avg_precip_mm", .pfloat 0)])])])
        "seasonal" (.pdict [])) "data" (.pdict [])) "long_term_avg_precip_mm") = true
    ∧ (build_summary (AgArea.mk none)
        [AgTile.mk (PyVal.pdict [("seasonal", .pdict [("data", .pdict
          [("long_term_avg_precip_mm", .pfloat 0)])])]) none]).env_summary = [] := by
  constructor
  · rfl
  · simp +decide [build_summary, summary_step, recsOf, ndviLookup, ndwiLookup, precipLookup,
      pyGet, pyGetD, pyIsNumber, pyNumVal, pyTruthy, List.lookup]

/-- C7 (amended): `env_summary` reports, for each of the three signals,
the exact mean of the values collected across tiles — where ndvi/ndwi
collect every present numeric value, while precipitation uses the
nested value only when truthy (a numeric `0` at the nested path with no
flat fallback is excluded) — formatted with 3 decimals for the indices
and 1 decimal plus a unit suffix for precipitation; a signal with no
contributing tiles is omitted; an empty tile list yields tileCount 0,
empty dominant list and empty env summary; `processing_seconds` is the
Area value with `None` (and `0.0`) collapsing to `0`. -/
theorem C7_env_summary (area : AgArea) (tiles : List AgTile) :
    (build_summary area tiles).env_summary
      = (if (ndviValues tiles).isEmpty then [] else
          [("Rata-rata NDVI", FmtVal.mk (pyMean (ndviValues tiles)) 3 "")]) ++
        (if (ndwiValues tiles).isEmpty then [] else
          [("Rata-rata NDWI", FmtVal.mk (pyMean (ndwiValues tiles)) 3 "")]) ++
        (if (precipValues tiles).isEmpty then [] else
          [("Curah Hujan Bulanan", FmtVal.mk (pyMean (precipValues tiles)) 1 " mm")])
    ∧ (tiles = [] → build_summary area tiles
        = Summary.mk 0 [] [] (area.processing_seconds.getD 0))
    ∧ (build_summary area tiles).processing_seconds = area.processing_seconds.getD 0 := by
  obtain ⟨-, h2, h3, h4⟩ := summary_fold_spec tiles ⟨[], [], [], []⟩
  have h2' : (tiles.foldl summary_step ⟨[], [], [], []⟩).ndvi_values = ndviValues tiles := h2
  have h3' : (tiles.foldl summary_step ⟨[], [], [], []⟩).ndwi_values = ndwiValues tiles := h3
  have h4' : (tiles.foldl summary_step ⟨[], [], [], []⟩).precip_values = precipValues tiles := h4
  have hps : processingSecondsOf area = area.processing_seconds.getD 0 := by
    unfold processingSecondsOf
    cases area.processing_seconds with
    | none => rfl
    | some q =>
      by_cases hq : q = 0
      · simp [hq]
      · simp [hq]
  refine ⟨?_, ?_, ?_⟩
  · simp only [build_summary]
    rw [h2', h3', h4']
  · intro h
    subst h
    simp only [build_summary, List.foldl_nil, List.length_nil]
    rw [hps]
    rfl
  · simp only [build_summary]
    exact hps

/-- Witness for C7 (amended): the empty tile list with a concrete
processing duration. -/
theorem C7_env_summary_witness :
    build_summary (AgArea.mk (some (5/2))) [] = Summary.mk 0 [] [] (5/2) := by
  rw [(C7_env_summary (AgArea.mk (some (5/2))) []).2.1 rfl]
  rfl

theorem py_max_by_spec {α : Type} (key : α → ℚ) :
    ∀ (xs : List α) (x : α),
      py_max_by key x xs ∈ x :: xs
      ∧ ∀ y ∈ x :: xs, key y ≤ key (py_max_by key x xs) := by
  intro xs
  induction xs with
  | nil =>
    intro x
    refine ⟨List.mem_cons_self _ _, ?_⟩
    intro y hy
    rcases List.mem_cons.mp hy with rfl | hy'
    · exact le_refl _
    · simp at hy'
  | cons g gs ih =>
    intro x
    have hstep : py_max_by key x (g :: gs) = py_max_by key (if key x < key g then g else x) gs := rfl
    obtain ⟨hmem, hge⟩ := ih (if key x < key g then g else x)
    constructor
    · rw [hstep]
      rcases List.mem_cons.mp hmem with h | h
      · rw [h]
        by_cases hlt : key x < key g
        · simp [hlt]
        · simp [hlt]
      · exact List.mem_cons_of_mem _ (List.mem_cons_of_mem _ h)
    · intro y hy
      rw [hstep]
      rcases List.mem_cons.mp hy with rfl | hy'
      · by_cases hlt : key y < key g
        · refine le_trans (le_of_lt hlt) ?_
          refine hge g ?_
          simp [hlt]
        · refine hge y ?_
          simp [hlt]
      · rcases List.mem_cons.mp hy' with rfl | hy''
        · by_cases hlt : key x < key y
          · refine hge y ?_
            simp [hlt]
          · refine le_trans (le_of_not_lt hlt) ?_
            refine hge x ?_
            simp [hlt]
        · exact hge y (List.mem_cons_of_mem _ hy'')

/-- The geometry `_to_polygon` derives before the polygon-reduction
steps: the unwrapped feature geometry, the union of a feature
collection's geometries, or the shaped input; `none` when there is
nothing to derive (the code's three "empty input" rejections). -/
def derived_geom (union : List ShpGeom → ShpGeom) : GeoInput → Option ShpGeom
  | .emptyInput => none
  | .feature none => none
  | .feature (some g) => some g
  | .featureCollection fs =>
    if (fs.filterMap id).isEmpty then none else some (union (fs.filterMap id))
  | .geometry g => some g

/-- The geometry left after the GeometryCollection and MultiPolygon
reduction steps of `_to_polygon`. -/
def core_reduced (union : List ShpGeom → ShpGeom) (geom : ShpGeom) : ShpGeom :=
  let geom1 :=
    if gtypeOf geom = .geometryCollectionT then union ((shpMembers geom).filter isPolygonal)
    else geom
  if gtypeOf geom1 = .multiPolygonT then
    match shpMembers geom1 with
    | [] => geom1
    | m :: ms => py_max_by shpArea m ms
  else geom1

theorem to_polygon_core_spec (union : List ShpGeom → ShpGeom) (geom : ShpGeom) :
    (∀ p, to_polygon_core union geom = .ok p →
      gtypeOf p = .polygonT ∧ p = core_reduced union geom)
    ∧ ((∃ msg, to_polygon_core union geom = .error msg) ↔
        (shpIsEmpty geom = true
         ∨ (shpIsEmpty geom = false ∧ gtypeOf geom = .geometryCollectionT
            ∧ ((shpMembers geom).filter isPolygonal).isEmpty = true)
         ∨ (shpIsEmpty geom = false
            ∧ ¬(gtypeOf geom = .geometryCollectionT
                ∧ ((shpMembers geom).filter isPolygonal).isEmpty = true)
            ∧ gtypeOf (core_reduced union geom) ≠ .polygonT))) := by
  by_cases hemp : shpIsEmpty geom
  · constructor
    · intro p hp
      simp [to_polygon_core, hemp] at hp
    · simp [to_polygon_core, hemp]
  · have hempf : shpIsEmpty geom = false := Bool.eq_false_iff.mpr hemp
    by_cases hgc : gtypeOf geom = .geometryCollectionT
    · by_cases hpoly : ((shpMembers geom).filter isPolygonal).isEmpty
      · constructor
        · intro p hp
          simp [to_polygon_core, hemp, hgc, hpoly] at hp
        · simp [to_polygon_core, hemp, hgc, hpoly, hempf]
      · have hcore : to_polygon_core union geom =
            (if gtypeOf (core_reduced union geom) = .polygonT then
              .ok (core_reduced union geom)
            else .error "GeoJSON harus berupa Polygon.") := by
          simp [to_polygon_core, hemp, hgc, hpoly, core_reduced]
        constructor
        · intro p hp
          rw [hcore] at hp
          split at hp
          · rename_i hpoly2
            cases hp
            exact ⟨hpoly2, rfl⟩
          · cases hp
        · rw [hcore]
          constructor
          · rintro ⟨msg, hmsg⟩
            split at hmsg
            · cases hmsg
            · rename_i hne
              exact Or.inr (Or.inr ⟨hempf, fun hc => hpoly hc.2, hne⟩)
          · rintro (h | ⟨-, -, hpoly'⟩ | ⟨-, -, hne⟩)
            · exact absurd h hemp
            · exact absurd hpoly' hpoly
            · rw [if_neg hne]
              exact ⟨_, rfl⟩
    · have hcore : to_polygon_core union geom =
          (if gtypeOf (core_reduced union geom) = .polygonT then
            .ok (core_reduced union geom)
          else .error "GeoJSON harus berupa Polygon.") := by
        simp [to_polygon_core, hemp, hgc, core_reduced]
      constructor
      · intro p hp
        rw [hcore] at hp
        split at hp
        · rename_i hpoly2
          cases hp
          exact ⟨hpoly2, rfl⟩
        · cases hp
      · rw [hcore]
        constructor
        · rintro ⟨msg, hmsg⟩
          split at hmsg
          · cases hmsg
          · rename_i hne
            exact Or.inr (Or.inr ⟨hempf, fun hc => hgc hc.1, hne⟩)
        · rintro (h | ⟨-, hgc', -⟩ | ⟨-, -, hne⟩)
          · exact absurd h hemp
          · exact absurd hgc' hgc
          · rw [if_neg hne]
            exact ⟨_, rfl⟩

/-- C9: `_to_polygon` reduces every accepted input to exactly one outer
polygon (an `ok` result always has `geom_type == "Polygon"`; a
multi-polygon keeps only its first largest-area member), and fails with
a `ValueError` (the spec's `GeometryError`) exactly when no polygon can
be derived: empty-ish input (falsy input, feature without geometry,
feature collection without geometries), an empty derived geometry
(including an empty union result), a geometry collection without
polygonal members, or a reduced geometry that is not a polygon
(unsupported type). -/
theorem C9_normalize_to_polygon (union : List ShpGeom → ShpGeom) (geojson : GeoInput) :
    (∀ p, to_polygon union geojson = .ok p → gtypeOf p = .polygonT)
    ∧ ((∃ msg, to_polygon union geojson = .error msg) ↔
        (derived_geom union geojson = none
         ∨ ∃ geom, derived_geom union geojson = some geom ∧
            (shpIsEmpty geom = true
             ∨ (shpIsEmpty geom = false ∧ gtypeOf geom = .geometryCollectionT
                ∧ ((shpMembers geom).filter isPolygonal).isEmpty = true)
             ∨ (shpIsEmpty geom = false
                ∧ ¬(gtypeOf geom = .geometryCollectionT
                    ∧ ((shpMembers geom).filter isPolygonal).isEmpty = true)
                ∧ gtypeOf (core_reduced union geom) ≠ .polygonT))))
    ∧ (∀ (m : ShpGeom) (ms : List ShpGeom),
        py_max_by shpArea m ms ∈ m :: ms
        ∧ (∀ y ∈ m :: ms, shpArea y ≤ shpArea (py_max_by shpArea m ms))
        ∧ (gtypeOf (py_max_by shpArea m ms) = .polygonT →
            to_polygon union (.geometry (.node .multiPolygonT false 0 (m :: ms)))
              = .ok (py_max_by shpArea m ms))) := by
  have hmp : ∀ (m : ShpGeom) (ms : List ShpGeom),
      py_max_by shpArea m ms ∈ m :: ms
      ∧ (∀ y ∈ m :: ms, shpArea y ≤ shpArea (py_max_by shpArea m ms))
      ∧ (gtypeOf (py_max_by shpArea m ms) = .polygonT →
          to_polygon union (.geometry (.node .multiPolygonT false 0 (m :: ms)))
            = .ok (py_max_by shpArea m ms)) := by
    intro m ms
    obtain ⟨hmem, hge⟩ := py_max_by_spec shpArea ms m
    refine ⟨hmem, hge, ?_⟩
    intro hpoly
    simp [to_polygon, to_polygon_core, gtypeOf, shpIsEmpty, shpMembers, hpoly]
    exact hpoly
  cases geojson with
  | emptyInput =>
    refine ⟨?_, ?_, hmp⟩
    · intro p hp
      simp [to_polygon] at hp
    · simp [to_polygon, derived_geom]
  | feature og =>
    cases og with
    | none =>
      refine ⟨?_, ?_, hmp⟩
      · intro p hp
        simp [to_polygon] at hp
      · simp [to_polygon, derived_geom]
    | some g =>
      obtain ⟨h1, h2⟩ := to_polygon_core_spec union g
      refine ⟨?_, ?_, hmp⟩
      · intro p hp
        exact (h1 p hp).1
      · have hd : derived_geom union (.feature (some g)) = some g := rfl
        have ht : to_polygon union (.feature (some g)) = to_polygon_core union g := rfl
        rw [hd, ht, h2]
        simp
  | featureCollection fs =>
    by_cases hfs : (fs.filterMap id).isEmpty
    · refine ⟨?_, ?_, hmp⟩
      · intro p hp
        simp [to_polygon, hfs] at hp
      · simp [to_polygon, derived_geom, hfs]
    · obtain ⟨h1, h2⟩ := to_polygon_core_spec union (union (fs.filterMap id))
      refine ⟨?_, ?_, hmp⟩
      · intro p hp
        have ht : to_polygon union (.featureCollection fs)
            = to_polygon_core union (union (fs.filterMap id)) := by
          simp [to_polygon, hfs]
        rw [ht] at hp
        exact (h1 p hp).1
      · have hd : derived_geom union (.featureCollection fs) = some (union (fs.filterMap id)) := by
          simp [derived_geom, hfs]
        have ht : to_polygon union (.featureCollection fs)
            = to_polygon_core union (union (fs.filterMap id)) := by
          simp [to_polygon, hfs]
        rw [hd, ht, h2]
        simp
  | geometry g =>
    obtain ⟨h1, h2⟩ := to_polygon_core_spec union g
    refine ⟨?_, ?_, hmp⟩
    · intro p hp
      exact (h1 p hp).1
    · have hd : derived_geom union (.geometry g) = some g := rfl
      have ht : to_polygon union (.geometry g) = to_polygon_core union g := rfl
      rw [hd, ht, h2]
      simp

/-- Witness for C9: a two-member multi-polygon keeps its larger-area
member. -/
theorem C9_normalize_to_polygon_witness :
    to_polygon (fun gs => gs.headD (ShpGeom.node .polygonT false 0 []))
        (.geometry (.node .multiPolygonT false 0
          [ShpGeom.node .polygonT false 1 [], ShpGeom.node .polygonT false 3 []]))
      = .ok (ShpGeom.node .polygonT false 3 []) := by
  obtain ⟨-, -, h3⟩ := (C9_normalize_to_polygon
      (fun gs => gs.headD (ShpGeom.node .polygonT false 0 []))
      (.geometry (.node .multiPolygonT false 0
        [ShpGeom.node .polygonT false 1 [], ShpGeom.node .polygonT false 3 []]))).2.2
      (ShpGeom.node .polygonT false 1 []) [ShpGeom.node .polygonT false 3 []]
  have hmax : py_max_by shpArea (ShpGeom.node .polygonT false 1 [])
      [ShpGeom.node .polygonT false 3 []] = ShpGeom.node .polygonT false 3 [] := by
    norm_num [py_max_by, shpArea]
  rw [hmax] at h3
  exact h3 rfl

/-! ### Structural access to the tiler's intermediate values -/

/-- The planar polygon the tiler grids (`polygon_meter`). -/
def tiler_polygon_meter {P : Type} (b : GeoBackend P) (p : P) : P :=
  b.to_meter (if ¬ b.is_valid p then b.buffer0 p else p)

/-- Model of `polygon_meter.bounds`. -/
def tiler_bounds {P : Type} (b : GeoBackend P) (p : P) : ℚ × ℚ × ℚ × ℚ :=
  b.bounds (tiler_polygon_meter b p)

/-- Model of `n_rows = max(1, ceil(height / tile_size))`. -/
def tiler_rows {P : Type} (b : GeoBackend P) (tile_size_m : ℚ) (p : P) : Nat :=
  (max 1 ⌈((tiler_bounds b p).2.2.2 - (tiler_bounds b p).2.1) / tile_size_m⌉).toNat

/-- Model of `n_cols = max(1, ceil(width / tile_size))`. -/
def tiler_cols {P : Type} (b : GeoBackend P) (tile_size_m : ℚ) (p : P) : Nat :=
  (max 1 ⌈((tiler_bounds b p).2.2.1 - (tiler_bounds b p).1) / tile_size_m⌉).toNat

/-- The per-cell result of the tiler at one grid position. -/
def tiler_cell {P : Type} (b : GeoBackend P) (tile_size_m : ℚ) (p : P) (row col : Nat) :
    Option (ℚ × ℚ) × Option (TileGeometryG P) :=
  cell_eval b tile_size_m (tiler_polygon_meter b p)
    (tiler_bounds b p).1 (tiler_bounds b p).2.1
    (tiler_bounds b p).2.2.1 (tiler_bounds b p).2.2.2 row col

theorem tile_ok_elim {P : Type} (b : GeoBackend P) (tile_size_m : ℚ) (p : P)
    (matrix : List (List (Option (ℚ × ℚ)))) (tiles : List (TileGeometryG P))
    (h : PolygonTiler_tile b tile_size_m p = .ok (matrix, tiles)) :
    matrix = (List.range (tiler_rows b tile_size_m p)).map (fun row =>
      (List.range (tiler_cols b tile_size_m p)).map (fun col =>
        (tiler_cell b tile_size_m p row col).1))
    ∧ tiles = ((List.range (tiler_rows b tile_size_m p)).map (fun row =>
      (List.range (tiler_cols b tile_size_m p)).filterMap (fun col =>
        (tiler_cell b tile_size_m p row col).2))).flatten := by
  unfold PolygonTiler_tile at h
  split at h
  · rename_i hval
    dsimp only [] at h
    split at h
    · cases h
    · injection h with h2
      injection h2 with hA hB
      subst hA
      subst hB
      constructor <;>
        simp [tiler_rows, tiler_cols, tiler_cell, tiler_bounds, tiler_polygon_meter, hval]
  · rename_i hval
    dsimp only [] at h
    split at h
    · cases h
    · injection h with h2
      injection h2 with hA hB
      subst hA
      subst hB
      constructor <;>
        simp [tiler_rows, tiler_cols, tiler_cell, tiler_bounds, tiler_polygon_meter, hval]

theorem tile_ok_intro {P : Type} (b : GeoBackend P) (tile_size_m : ℚ) (p : P)
    (hne : b.is_empty (tiler_polygon_meter b p) = false) :
    PolygonTiler_tile b tile_size_m p = .ok (
      (List.range (tiler_rows b tile_size_m p)).map (fun row =>
        (List.range (tiler_cols b tile_size_m p)).map (fun col =>
          (tiler_cell b tile_size_m p row col).1)),
      ((List.range (tiler_rows b tile_size_m p)).map (fun row =>
        (List.range (tiler_cols b tile_size_m p)).filterMap (fun col =>
          (tiler_cell b tile_size_m p row col).2))).flatten) := by
  have hne' : b.is_empty (b.to_meter (if ¬ b.is_valid p = true then b.buffer0 p else p))
      = false := hne
  unfold PolygonTiler_tile
  dsimp only []
  rw [hne']
  simp only [Bool.false_eq_true, if_false]
  rfl

theorem cell_eval_row_col {P : Type} (b : GeoBackend P) (tile_size_m : ℚ) (pm : P)
    (minx miny maxx maxy : ℚ) (row col : Nat) (t : TileGeometryG P)
    (h : (cell_eval b tile_size_m pm minx miny maxx maxy row col).2 = some t) :
    t.row = row ∧ t.col = col
    ∧ t.centroid = ((b.centroid t.polygon_wgs84).2, (b.centroid t.polygon_wgs84).1) := by
  unfold cell_eval at h
  revert h
  split
  · intro h
    cases h
  · intro h
    cases h
    exact ⟨rfl, rfl, rfl⟩
  · split
    · intro h
      cases h
    · intro h
      cases h
      exact ⟨rfl, rfl, rfl⟩

theorem cell_eval_of_empty {P : Type} (b : GeoBackend P) (tile_size_m : ℚ) (pm : P)
    (minx miny maxx maxy : ℚ) (row col : Nat)
    (h : b.intersect_cell (cell_rect tile_size_m minx miny maxx maxy row col) pm
      = .emptyInter) :
    cell_eval b tile_size_m pm minx miny maxx maxy row col = (none, none) := by
  unfold cell_eval
  rw [h]

theorem cell_eval_of_multi {P : Type} (b : GeoBackend P) (tile_size_m : ℚ) (pm : P)
    (minx miny maxx maxy : ℚ) (row col : Nat) (pieces : List P) (q : P) (qs : List P)
    (h : b.intersect_cell (cell_rect tile_size_m minx miny maxx maxy row col) pm
      = .multi pieces)
    (hf : pieces.filter (fun g => 0 < b.area g) = q :: qs) :
    cell_eval b tile_size_m pm minx miny maxx maxy row col
      = (some ((b.centroid (b.to_wgs84 (py_max_by b.area q qs))).2,
               (b.centroid (b.to_wgs84 (py_max_by b.area q qs))).1),
         some (TileGeometryG.mk row col (b.to_wgs84 (py_max_by b.area q qs))
           ((b.centroid (b.to_wgs84 (py_max_by b.area q qs))).2,
            (b.centroid (b.to_wgs84 (py_max_by b.area q qs))).1))) := by
  unfold cell_eval
  rw [h]
  dsimp only []
  rw [hf]
  rfl

theorem tile_mem_iff {P : Type} (b : GeoBackend P) (tile_size_m : ℚ) (p : P)
    (matrix : List (List (Option (ℚ × ℚ)))) (tiles : List (TileGeometryG P))
    (h : PolygonTiler_tile b tile_size_m p = .ok (matrix, tiles)) (t : TileGeometryG P) :
    t ∈ tiles ↔ ∃ row, row < tiler_rows b tile_size_m p
      ∧ ∃ col, col < tiler_cols b tile_size_m p
      ∧ (tiler_cell b tile_size_m p row col).2 = some t := by
  obtain ⟨-, ht⟩ := tile_ok_elim b tile_size_m p matrix tiles h
  subst ht
  constructor
  · intro ht
    rw [List.mem_flatten] at ht
    obtain ⟨l, hl, htl⟩ := ht
    rw [List.mem_map] at hl
    obtain ⟨row, hrow, rfl⟩ := hl
    rw [List.mem_filterMap] at htl
    obtain ⟨col, hcol, hc⟩ := htl
    exact ⟨row, List.mem_range.mp hrow, col, List.mem_range.mp hcol, hc⟩
  · rintro ⟨row, hrow, col, hcol, hc⟩
    rw [List.mem_flatten]
    refine ⟨_, List.mem_map_of_mem _ (List.mem_range.mpr hrow), ?_⟩
    rw [List.mem_filterMap]
    exact ⟨col, List.mem_range.mpr hcol, hc⟩

theorem tile_matrix_get {P : Type} (b : GeoBackend P) (tile_size_m : ℚ) (p : P)
    (matrix : List (List (Option (ℚ × ℚ)))) (tiles : List (TileGeometryG P))
    (h : PolygonTiler_tile b tile_size_m p = .ok (matrix, tiles)) (row col : Nat)
    (hrow : row < tiler_rows b tile_size_m p) (hcol : col < tiler_cols b tile_size_m p) :
    matrix[row]?.bind (fun rowl => rowl[col]?)
      = some ((tiler_cell b tile_size_m p row col).1) := by
  obtain ⟨hm, -⟩ := tile_ok_elim b tile_size_m p matrix tiles h
  subst hm
  rw [List.getElem?_map, List.getElem?_range hrow]
  simp only [Option.map_some', Option.some_bind]
  rw [List.getElem?_map, List.getElem?_range hcol]
  rfl

/-- C8: for every geometry behaviour, whenever a grid cell's
intersection with the polygon yields multiple pieces, the tiler keeps
exactly the first largest-area piece among those of positive area: that
piece (reprojected) is the emitted tile's boundary, its centroid is the
tile's centroid and the matrix entry, and no other piece contributes a
descriptor for that cell. -/
theorem C8_largest_piece {P : Type} (b : GeoBackend P) (tile_size_m : ℚ) (p : P)
    (matrix : List (List (Option (ℚ × ℚ)))) (tiles : List (TileGeometryG P))
    (row col : Nat) (pieces : List P) (q : P) (qs : List P)
    (h : PolygonTiler_tile b tile_size_m p = .ok (matrix, tiles))
    (hrow : row < tiler_rows b tile_size_m p) (hcol : col < tiler_cols b tile_size_m p)
    (hint : b.intersect_cell
        (cell_rect tile_size_m (tiler_bounds b p).1 (tiler_bounds b p).2.1
          (tiler_bounds b p).2.2.1 (tiler_bounds b p).2.2.2 row col)
        (tiler_polygon_meter b p) = .multi pieces)
    (hf : pieces.filter (fun g => 0 < b.area g) = q :: qs) :
    (py_max_by b.area q qs ∈ q :: qs
      ∧ ∀ y ∈ q :: qs, b.area y ≤ b.area (py_max_by b.area q qs))
    ∧ TileGeometryG.mk row col (b.to_wgs84 (py_max_by b.area q qs))
        ((b.centroid (b.to_wgs84 (py_max_by b.area q qs))).2,
         (b.centroid (b.to_wgs84 (py_max_by b.area q qs))).1) ∈ tiles
    ∧ matrix[row]?.bind (fun rowl => rowl[col]?)
        = some (some ((b.centroid (b.to_wgs84 (py_max_by b.area q qs))).2,
                      (b.centroid (b.to_wgs84 (py_max_by b.area q qs))).1))
    ∧ (∀ t ∈ tiles, t.row = row → t.col = col →
        t = TileGeometryG.mk row col (b.to_wgs84 (py_max_by b.area q qs))
          ((b.centroid (b.to_wgs84 (py_max_by b.area q qs))).2,
           (b.centroid (b.to_wgs84 (py_max_by b.area q qs))).1)) := by
  have hcell : tiler_cell b tile_size_m p row col
      = (some ((b.centroid (b.to_wgs84 (py_max_by b.area q qs))).2,
               (b.centroid (b.to_wgs84 (py_max_by b.area q qs))).1),
         some (TileGeometryG.mk row col (b.to_wgs84 (py_max_by b.area q qs))
           ((b.centroid (b.to_wgs84 (py_max_by b.area q qs))).2,
            (b.centroid (b.to_wgs84 (py_max_by b.area q qs))).1))) :=
    cell_eval_of_multi b tile_size_m (tiler_polygon_meter b p)
      (tiler_bounds b p).1 (tiler_bounds b p).2.1
      (tiler_bounds b p).2.2.1 (tiler_bounds b p).2.2.2 row col pieces q qs hint hf
  obtain ⟨hmax_mem, hmax_ge⟩ := py_max_by_spec b.area qs q
  refine ⟨⟨hmax_mem, hmax_ge⟩, ?_, ?_, ?_⟩
  · rw [tile_mem_iff b tile_size_m p matrix tiles h]
    refine ⟨row, hrow, col, hcol, ?_⟩
    rw [hcell]
  · rw [tile_matrix_get b tile_size_m p matrix tiles h row col hrow hcol, hcell]
  · intro t ht htr htc
    rw [tile_mem_iff b tile_size_m p matrix tiles h] at ht
    obtain ⟨r', hr', c', hc', hcell'⟩ := ht
    obtain ⟨htr', htc', -⟩ := cell_eval_row_col b tile_size_m (tiler_polygon_meter b p)
      (tiler_bounds b p).1 (tiler_bounds b p).2.1
      (tiler_bounds b p).2.2.1 (tiler_bounds b p).2.2.2 r' c' t hcell'
    have hre : r' = row := htr'.symm.trans htr
    have hce : c' = col := htc'.symm.trans htc
    rw [hre, hce, hcell] at hcell'
    have hcell2 : some (TileGeometryG.mk row col (b.to_wgs84 (py_max_by b.area q qs))
        ((b.centroid (b.to_wgs84 (py_max_by b.area q qs))).2,
         (b.centroid (b.to_wgs84 (py_max_by b.area q qs))).1)) = some t := hcell'
    injection hcell2 with hcell3
    exact hcell3.symm

/-- C1 (amended): for every geometry behaviour and cell size ≥ 1, a
successful `tile()` returns a centroid matrix of exactly
`max(1, ceil(height/cellSize))` rows by `max(1, ceil(width/cellSize))`
columns over the planar bounding box; a cell whose intersection with
the polygon is empty holds the null centroid and emits no tile
descriptor; and every emitted tile's centroid is the area centroid of
its own reprojected clipped boundary piece (which, for a non-convex
piece, need not lie inside the polygon's buffer(0)-repaired boundary). -/
theorem C1_tile_structure {P : Type} (b : GeoBackend P) (tile_size_m : ℚ) (p : P)
    (matrix : List (List (Option (ℚ × ℚ)))) (tiles : List (TileGeometryG P))
    (hs : 1 ≤ tile_size_m)
    (h : PolygonTiler_tile b tile_size_m p = .ok (matrix, tiles)) :
    matrix.length = tiler_rows b tile_size_m p
    ∧ (∀ rowl ∈ matrix, rowl.length = tiler_cols b tile_size_m p)
    ∧ (∀ row col, row < tiler_rows b tile_size_m p → col < tiler_cols b tile_size_m p →
        b.intersect_cell
            (cell_rect tile_size_m (tiler_bounds b p).1 (tiler_bounds b p).2.1
              (tiler_bounds b p).2.2.1 (tiler_bounds b p).2.2.2 row col)
            (tiler_polygon_meter b p) = .emptyInter →
          matrix[row]?.bind (fun rowl => rowl[col]?) = some none
          ∧ ∀ t ∈ tiles, ¬(t.row = row ∧ t.col = col))
    ∧ (∀ t ∈ tiles,
        t.centroid = ((b.centroid t.polygon_wgs84).2, (b.centroid t.polygon_wgs84).1)) := by
  obtain ⟨hm, -⟩ := tile_ok_elim b tile_size_m p matrix tiles h
  refine ⟨?_, ?_, ?_, ?_⟩
  · rw [hm]
    simp
  · intro rowl hrowl
    rw [hm] at hrowl
    obtain ⟨row, -, rfl⟩ := List.mem_map.mp hrowl
    simp
  · intro row col hrow hcol hempty
    have hcell : tiler_cell b tile_size_m p row col = (none, none) :=
      cell_eval_of_empty b tile_size_m (tiler_polygon_meter b p)
        (tiler_bounds b p).1 (tiler_bounds b p).2.1
        (tiler_bounds b p).2.2.1 (tiler_bounds b p).2.2.2 row col hempty
    refine ⟨?_, ?_⟩
    · rw [tile_matrix_get b tile_size_m p matrix tiles h row col hrow hcol, hcell]
    · rintro t ht ⟨htr, htc⟩
      rw [tile_mem_iff b tile_size_m p matrix tiles h] at ht
      obtain ⟨r', -, c', -, hcell'⟩ := ht
      obtain ⟨htr', htc', -⟩ := cell_eval_row_col b tile_size_m (tiler_polygon_meter b p)
        (tiler_bounds b p).1 (tiler_bounds b p).2.1
        (tiler_bounds b p).2.2.1 (tiler_bounds b p).2.2.2 r' c' t hcell'
      have hre : r' = row := htr'.symm.trans htr
      have hce : c' = col := htc'.symm.trans htc
      rw [hre, hce, hcell] at hcell'
      have hcell2 : (none : Option (TileGeometryG P)) = some t := hcell'
      cases hcell2
  · intro t ht
    rw [tile_mem_iff b tile_size_m p matrix tiles h] at ht
    obtain ⟨r', -, c', -, hcell'⟩ := ht
    exact (cell_eval_row_col b tile_size_m (tiler_polygon_meter b p)
      (tiler_bounds b p).1 (tiler_bounds b p).2.1
      (tiler_bounds b p).2.2.1 (tiler_bounds b p).2.2.2 r' c' t hcell').2.2

/-- A concrete one-cell geometry instantiation whose single cell
intersection is a three-piece multi-part result; pieces are identified
by their area. -/
def multiBackend : GeoBackend ℚ :=
  { is_valid := fun _ => true
    buffer0 := id
    to_meter := id
    to_wgs84 := id
    is_empty := fun _ => false
    bounds := fun _ => (0, 0, 1, 1)
    intersect_cell := fun _ _ => .multi [2, 37, 5]
    area := id
    centroid := fun q => (q, q) }

theorem multiBackend_tile :
    PolygonTiler_tile multiBackend 1 0
      = .ok ([[some ((37 : ℚ), 37)]], [TileGeometryG.mk 0 0 (37 : ℚ) (37, 37)]) := by
  norm_num [PolygonTiler_tile, multiBackend, cell_eval, cell_rect, py_max_by_area,
    py_max_by, List.range_succ, List.filter_cons, List.filterMap_cons, decide_eq_true_eq]

/-- Witness for C8: the 37-area piece of the three-piece intersection
is kept, becomes the tile's boundary and centroid, and dominates every
candidate's area. -/
theorem C8_largest_piece_witness :
    TileGeometryG.mk 0 0 (37 : ℚ) (37, 37)
        ∈ [TileGeometryG.mk 0 0 (37 : ℚ) (37, 37)]
    ∧ ∀ y ∈ [(2 : ℚ), 37, 5], y ≤ 37 := by
  have hmax : py_max_by multiBackend.area 2 [37, 5] = 37 := by
    norm_num [py_max_by, multiBackend]
  have h := C8_largest_piece multiBackend 1 0
    [[some ((37 : ℚ), 37)]] [TileGeometryG.mk 0 0 (37 : ℚ) (37, 37)]
    0 0 [2, 37, 5] 2 [37, 5] multiBackend_tile
    (by norm_num [tiler_rows, tiler_bounds, tiler_polygon_meter, multiBackend])
    (by norm_num [tiler_cols, tiler_bounds, tiler_polygon_meter, multiBackend])
    rfl
    (by norm_num [multiBackend, List.filter_cons, decide_eq_true_eq])
  constructor
  · have h2 := h.2.1
    rw [hmax] at h2
    exact h2
  · intro y hy
    have h3 := h.1.2 y hy
    rw [hmax] at h3
    exact h3

theorem uPolygon_tile :
    PolygonTiler_tile ringBackend 2000000 uPolygon
      = .ok ([[some ((77 : ℚ)/17, 5)]], [TileGeometryG.mk 0 0 uPolygon ((77 : ℚ)/17, 5)]) := by
  have hval : (if ¬ ringBackend.is_valid uPolygon = true
      then ringBackend.buffer0 uPolygon else uPolygon) = uPolygon := rfl
  have hpm : ringBackend.to_meter uPolygon =
      [(0, 0), (1113190, 0), (1113190, 1113190), (779233, 1113190),
       (779233, 222638), (333957, 222638), (333957, 1113190), (0, 1113190)] := by
    norm_num [ringBackend, metersPerDegree, uPolygon]
  have hpm2 : tiler_polygon_meter ringBackend uPolygon =
      [(0, 0), (1113190, 0), (1113190, 1113190), (779233, 1113190),
       (779233, 222638), (333957, 222638), (333957, 1113190), (0, 1113190)] := by
    unfold tiler_polygon_meter
    rw [hval]
    exact hpm
  have hbounds : ringBounds
      [((0 : ℚ), (0 : ℚ)), (1113190, 0), (1113190, 1113190), (779233, 1113190),
       (779233, 222638), (333957, 222638), (333957, 1113190), (0, 1113190)]
      = (0, 0, 1113190, 1113190) := by
    norm_num [ringBounds]
  have hbounds2 : tiler_bounds ringBackend uPolygon = (0, 0, 1113190, 1113190) := by
    unfold tiler_bounds
    rw [hpm2]
    exact hbounds
  have hne : ringBackend.is_empty (tiler_polygon_meter ringBackend uPolygon) = false := by
    rw [hpm2]
    rfl
  have hrows : tiler_rows ringBackend 2000000 uPolygon = 1 := by
    unfold tiler_rows
    rw [hbounds2]
    dsimp only []
    rw [show ((1113190 : ℚ) - 0) / 2000000 = 111319/200000 from by norm_num]
    rw [show (⌈(111319 : ℚ)/200000⌉ : ℤ) = 1 from by norm_num [Int.ceil_eq_iff]]
    rfl
  have hcols : tiler_cols ringBackend 2000000 uPolygon = 1 := by
    unfold tiler_cols
    rw [hbounds2]
    dsimp only []
    rw [show ((1113190 : ℚ) - 0) / 2000000 = 111319/200000 from by norm_num]
    rw [show (⌈(111319 : ℚ)/200000⌉ : ℤ) = 1 from by norm_num [Int.ceil_eq_iff]]
    rfl
  have hrect0 : cell_rect 2000000 0 0 1113190 1113190 0 0
      = ((0 : ℚ), (0 : ℚ), (1113190 : ℚ), (1113190 : ℚ)) := by
    norm_num [cell_rect]
  have hall : List.all
      [((0 : ℚ), (0 : ℚ)), (1113190, 0), (1113190, 1113190), (779233, 1113190),
       (779233, 222638), (333957, 222638), (333957, 1113190), (0, 1113190)]
      (inRect (0, 0, 1113190, 1113190)) = true := by
    norm_num [inRect, List.all_cons]
  have hinter : ringBackend.intersect_cell ((0 : ℚ), (0 : ℚ), (1113190 : ℚ), (1113190 : ℚ))
      [((0 : ℚ), (0 : ℚ)), (1113190, 0), (1113190, 1113190), (779233, 1113190),
       (779233, 222638), (333957, 222638), (333957, 1113190), (0, 1113190)]
      = .single
        [((0 : ℚ), (0 : ℚ)), (1113190, 0), (1113190, 1113190), (779233, 1113190),
         (779233, 222638), (333957, 222638), (333957, 1113190), (0, 1113190)] := by
    simp only [ringBackend]
    rw [hall]
    simp
  have hwgs : ringBackend.to_wgs84
      [((0 : ℚ), (0 : ℚ)), (1113190, 0), (1113190, 1113190), (779233, 1113190),
       (779233, 222638), (333957, 222638), (333957, 1113190), (0, 1113190)]
      = uPolygon := by
    norm_num [ringBackend, metersPerDegree, uPolygon]
  have hcentroid : ringCentroid uPolygon = (5, 77/17) := by
    norm_num [ringCentroid, ringArea2, ringEdges, uPolygon, List.zip, List.zipWith]
  have hcent : ringBackend.centroid uPolygon = (5, 77/17) := hcentroid
  have hcell : tiler_cell ringBackend 2000000 uPolygon 0 0
      = (some ((77 : ℚ)/17, 5), some (TileGeometryG.mk 0 0 uPolygon ((77 : ℚ)/17, 5))) := by
    unfold tiler_cell
    rw [hbounds2, hpm2]
    dsimp only []
    unfold cell_eval
    rw [hrect0, hinter]
    dsimp only []
    rw [hwgs, hcent]
  rw [tile_ok_intro ringBackend 2000000 uPolygon hne, hrows, hcols]
  simp only [List.range_succ, List.range_zero, List.nil_append, List.map_cons, List.map_nil,
    List.filterMap_cons, List.filterMap_nil, List.flatten_cons, List.flatten_nil,
    List.append_nil, hcell]

/-- C1 counterexample: the valid, simple, non-convex U-shaped polygon
tiled with a cell size covering its whole bounding box (one grid cell,
so the clipped piece is the polygon itself).  The tiler emits a
non-null centroid — the area centroid (5, 77/17) of the U — but that
point lies in the notch, outside the polygon's boundary (the polygon is
valid, so its buffer(0) repair is itself); a clearly interior point
(3/2, 5) witnesses that the containment test is oriented correctly. -/
theorem C1_counterexample :
    PolygonTiler_tile ringBackend 2000000 uPolygon
      = .ok ([[some ((77 : ℚ)/17, 5)]], [TileGeometryG.mk 0 0 uPolygon ((77 : ℚ)/17, 5)])
    ∧ ringBackend.is_valid uPolygon = true
    ∧ (1 : ℚ) ≤ 2000000
    ∧ point_in_ring (5, (77 : ℚ)/17) uPolygon = false
    ∧ point_in_ring ((3 : ℚ)/2, 5) uPolygon = true := by
  refine ⟨uPolygon_tile, rfl, by norm_num, ?_, ?_⟩
  · norm_num [point_in_ring, ringEdges, uPolygon, List.zip, List.zipWith]
  · norm_num [point_in_ring, ringEdges, uPolygon, List.zip, List.zipWith]

/-- Witness for C1 (amended) at the U polygon: the matrix has exactly
`tiler_rows` rows and the emitted tile's centroid is the centroid of
its own boundary piece. -/
theorem C1_tile_structure_witness :
    ([[some ((77 : ℚ)/17, 5)]] : List (List (Option (ℚ × ℚ)))).length
        = tiler_rows ringBackend 2000000 uPolygon
    ∧ (TileGeometryG.mk 0 0 uPolygon ((77 : ℚ)/17, 5)).centroid
        = ((ringBackend.centroid uPolygon).2, (ringBackend.centroid uPolygon).1) := by
  have h := C1_tile_structure ringBackend 2000000 uPolygon
    [[some ((77 : ℚ)/17, 5)]] [TileGeometryG.mk 0 0 uPolygon ((77 : ℚ)/17, 5)]
    (by norm_num) uPolygon_tile
  exact ⟨h.1, h.2.2.2 _ (List.mem_cons_self _ _)⟩
